import Mathlib

/-!
Verification of the Keysight VNA SCPI control library (`py_vna.py`).

This file gives a shallow embedding of the state-bearing core of the
library — the guided-calibration orchestrator (`run_cal`,
`measure_cal_standard`), the de-embed/compose pipeline (`deembed_calset`
and the trace-creation family it dispatches to), the measurement/trace
index (`get_meas_names`, the window/trace-slot logic of
`new_sparam_trace`), the binary multiport decode
(`get_ecal_sparam_data`), the configuration validators
(`configure_mod_sweep`, `configure_sa_sweep`) and the completion barrier
(`wait_for_opc`) — and proves or refutes the specification claims about
them.

Modelling conventions:
* The instrument link is an explicit environment (`Env`) of query
  responses plus two consumable outcome queues (one for `*opc?`
  completion queries, one for `syst:err?` error drains).  An empty queue
  means "every further interaction succeeds / reports no error".
* Effectful methods live in the monad `M α = St → Except String α × St`:
  state-passing with short-circuiting exceptions that preserve the state
  reached at the raise point.  The state `St` records the queues and the
  ordered log of commands written to the instrument.  Fire-and-forget
  `write` calls always succeed (pyvisa writes do not raise on
  instrument-side errors); failures arise from `*opc?` timeouts, error
  drains, validation `raise` statements and numeric-parse failures,
  exactly as in the source.
* SCPI command strings are represented by the inductive type `Cmd`,
  one constructor per distinct f-string template in the source, carrying
  the interpolated arguments.
* Python floats are modelled by `ℚ`; `float(s)` by the decimal/exponent
  parser `pyFloat`; `int(s)` by `pyInt`.  Python string helpers
  (`strip`, `rstrip`, `lower`, `split`, substring `in`) are modelled by
  the explicit character-list functions below.
-/

/- ### Python string primitives -/

/-- Python `str.split(sep)` for a single-character separator: splits on every
occurrence, keeping empty fields (`"".split(',') == ['']`). -/
def splitChars (sep : Char) : List Char → List (List Char)
  | [] => [[]]
  | c :: cs =>
    if c = sep then [] :: splitChars sep cs
    else
      match splitChars sep cs with
      | [] => [[c]]
      | h :: t => (c :: h) :: t

/-- Python `str.split(',')` at the `String` level. -/
def pySplit (sep : Char) (s : String) : List String :=
  (splitChars sep s.data).map List.asString

/-- Python's notion of whitespace stripped by `str.strip()` / `str.rstrip()`. -/
def pyWs (c : Char) : Bool :=
  c = ' ' || c = '\t' || c = '\n' || c = '\r' || c = '\x0b' || c = '\x0c'

/-- Python `str.strip(chars)`: drop characters of the set from both ends. -/
def stripCharsList (p : Char → Bool) (cs : List Char) : List Char :=
  ((cs.dropWhile p).reverse.dropWhile p).reverse

/-- Python `str.strip()` (no argument: strip whitespace from both ends). -/
def pyStrip (s : String) : String :=
  (stripCharsList pyWs s.data).asString

/-- Python `str.rstrip()` (strip trailing whitespace). -/
def pyRStrip (s : String) : String :=
  ((s.data.reverse.dropWhile pyWs).reverse).asString

/-- Python `str.lower()` (ASCII lowering, which is all the source needs). -/
def pyLower (s : String) : String :=
  (s.data.map Char.toLower).asString

/-- Whether `pat` occurs at the head of `cs`. -/
def strStarts : List Char → List Char → Bool
  | [], _ => true
  | _ :: _, [] => false
  | p :: ps, c :: cs => p = c && strStarts ps cs

/-- Whether `pat` occurs anywhere inside `cs` (Python `pat in s`). -/
def strOccurs (pat : List Char) : List Char → Bool
  | [] => strStarts pat []
  | c :: cs => strStarts pat (c :: cs) || strOccurs pat cs

/-- Python substring test `pat in s` on `String`s. -/
def strHas (s pat : String) : Bool :=
  strOccurs pat.data s.data

/-- Python `str.replace(old, '')` for a single character `old`: remove every
occurrence. -/
def removeChar (old : Char) (s : String) : String :=
  (s.data.filter (fun c => c ≠ old)).asString

/- ### Python numeric conversions -/

/-- Consume a run of decimal digits, returning their value, the count
consumed, and the rest. -/
def grabDigits : List Char → Nat → Nat → Nat × Nat × List Char
  | [], acc, n => (acc, n, [])
  | c :: cs, acc, n =>
    if c.isDigit then grabDigits cs (acc * 10 + (c.toNat - '0'.toNat)) (n + 1)
    else (acc, n, c :: cs)

/-- Python `int(s)`: optional surrounding whitespace, optional sign, one or
more decimal digits; anything else is the `ValueError` (`none`). -/
def pyInt (s : String) : Option Int :=
  let cs := stripCharsList pyWs s.data
  let (sgn, cs) :=
    match cs with
    | '+' :: rest => ((1 : Int), rest)
    | '-' :: rest => ((-1 : Int), rest)
    | rest => ((1 : Int), rest)
  let (v, len, rest) := grabDigits cs 0 0
  if len = 0 ∨ rest ≠ [] then none
  else some (sgn * (v : Int))

/-- Python `float(s)` on decimal literals with optional sign, fraction and
exponent (the only forms the instrument returns).  `none` models the
`ValueError` raised on any other input. -/
def pyFloat (s : String) : Option ℚ :=
  let cs := stripCharsList pyWs s.data
  let (sgn, cs) :=
    match cs with
    | '+' :: rest => ((1 : ℚ), rest)
    | '-' :: rest => ((-1 : ℚ), rest)
    | rest => ((1 : ℚ), rest)
  let (ip, ipLen, cs) := grabDigits cs 0 0
  let (fp, fpLen, cs) :=
    match cs with
    | '.' :: rest =>
      let (v, n, rest) := grabDigits rest 0 0
      (v, n, rest)
    | rest => (0, 0, rest)
  if ipLen + fpLen = 0 then none
  else
    let mant : ℚ := (ip : ℚ) + (fp : ℚ) / ((10 : ℚ) ^ fpLen)
    match cs with
    | [] => some (sgn * mant)
    | e :: rest =>
      if e = 'e' ∨ e = 'E' then
        let (esgn, rest) :=
          match rest with
          | '+' :: r => ((1 : Int), r)
          | '-' :: r => ((-1 : Int), r)
          | r => ((1 : Int), r)
        let (ev, eLen, rest) := grabDigits rest 0 0
        if eLen = 0 ∨ rest ≠ [] then none
        else some (sgn * mant * (10 : ℚ) ^ (esgn * (ev : Int)))
      else none

/- ### Timestamp formatting -/

/-- A wall-clock instant, standing for the `datetime.now(tz)` value read in
`run_cal`. -/
structure PyTimestamp where
  year : Nat
  month : Nat
  day : Nat
  hour : Nat
  minute : Nat
  second : Nat
deriving DecidableEq

/-- Two-digit zero padding, as produced by `strftime` fields `%m %d %H %M %S`. -/
def pad2 (n : Nat) : String :=
  if n < 10 then "0" ++ toString n else toString n

/-- The `strftime('%Y%m%d_%H-%M-%S')` format used for the cal-set name suffix
(`%Y` prints the full year, four digits for any year 1000–9999). -/
def fmtTimestamp (t : PyTimestamp) : String :=
  toString t.year ++ pad2 t.month ++ pad2 t.day ++ "_" ++
    pad2 t.hour ++ "-" ++ pad2 t.minute ++ "-" ++ pad2 t.second

/- ### The completion barrier `wait_for_opc` (session-timeout view) -/

/-- Embeds `wait_for_opc` (source lines 121–136) at the granularity of the
session timeout it manipulates.  Input: the current session timeout, the
`tempTimeout` argument (`none` models Python `None`) and whether the
`*opc?` query completes in time.  Output: the call's outcome and the
session timeout after the call (on a raise, the value at the raise
point, since the restore line is skipped).  Python's `if tempTimeout:`
is truthiness, so `some 0` takes the no-override branch. -/
def wait_for_opc (sessionTimeout : Nat) (tempTimeout : Option Nat)
    (opcOk : Bool) : Except String Unit × Nat :=
  match tempTimeout with
  | some t =>
    if t ≠ 0 then
      let originalTimeout := sessionTimeout
      if opcOk then (Except.ok (), originalTimeout)
      else (Except.error "VisaIOError: timeout expired", t)
    else
      if opcOk then (Except.ok (), sessionTimeout)
      else (Except.error "VisaIOError: timeout expired", sessionTimeout)
  | none =>
    if opcOk then (Except.ok (), sessionTimeout)
    else (Except.error "VisaIOError: timeout expired", sessionTimeout)

/-- C9: a `wait_for_opc` call with a non-`None`, nonzero temporary timeout
that completes without error restores the session timeout exactly; a call
without a temporary timeout never modifies it. -/
theorem wait_for_opc_preserves_timeout
    (st t : Nat) (b : Bool) (ht : t ≠ 0)
    (hok : (wait_for_opc st (some t) b).1 = Except.ok ()) :
    (wait_for_opc st (some t) b).2 = st ∧
      ∀ (st' : Nat) (b' : Bool), (wait_for_opc st' none b').2 = st' := by
  constructor
  · cases b with
    | false => simp [wait_for_opc, ht] at hok
    | true => simp [wait_for_opc, ht]
  · intro st' b'
    cases b' <;> simp [wait_for_opc]

/-- Witness for `wait_for_opc_preserves_timeout` at a concrete call. -/
theorem wait_for_opc_preserves_timeout_witness :
    (wait_for_opc 10000 (some 30000) true).2 = 10000 ∧
      (wait_for_opc 10000 none false).2 = 10000 := by
  refine ⟨(wait_for_opc_preserves_timeout 10000 30000 true (by decide)
    (by rfl)).1, ?_⟩
  exact (wait_for_opc_preserves_timeout 10000 30000 true (by decide)
    (by rfl)).2 10000 false

/- ### Measurement Index: `get_meas_names` -/

/-- Python extended-slice `l[::2]`: the elements at even indices. -/
def everyOther {α : Type} : List α → List α
  | [] => []
  | [a] => [a]
  | a :: _ :: rest => a :: everyOther rest

/-- Alternate the elements of two lists: `interleave [a,b] [x,y] = [a,x,b,y]`.
Used only to state theorems about alternating name/parameter catalogs. -/
def interleave {α : Type} : List α → List α → List α
  | [], _ => []
  | a :: _, [] => [a]
  | a :: as, b :: bs => a :: b :: interleave as bs

/-- Embeds `get_meas_names` (source lines 174–200) as a pure function of the
raw `calculate{ch}:parameter:catalog:extended?` response.  The raw string is
stripped of surrounding quotes/newlines and split on commas; names are the
even-indexed tokens (`measurements[::2]`), parameters the odd-indexed ones
(`measurements[1::2]`); with `includeParams` nonzero the result is the
name→parameter mapping built by `zip` (which silently truncates to the
shorter list), otherwise the name list. -/
def get_meas_names (raw : String) (includeParams : Nat) :
    List String ⊕ List (String × String) :=
  let measurements :=
    (splitChars ',' (stripCharsList (fun c => c = '"' || c = '\n') raw.data)).map
      List.asString
  let measNames := everyOther measurements
  let measParams := everyOther (measurements.drop 1)
  if includeParams ≠ 0 then Sum.inr (measNames.zip measParams)
  else Sum.inl measNames

/-- Counterexample to C5: on the odd-length catalog `a,S11,b` (a malformed
response with a trailing unpaired token), `get_meas_names` does not fail:
the mapping form silently drops the trailing token `b`. -/
theorem get_meas_names_odd_counterexample :
    get_meas_names "a,S11,b" 1 = Sum.inr [("a", "S11")] ∧
      get_meas_names "a,S11,b" 0 = Sum.inl ["a", "b"] := by
  constructor <;> rfl

theorem everyOther_interleave {α : Type} :
    ∀ (xs ys t : List α), xs.length = ys.length →
      everyOther (interleave xs ys ++ t) = xs ++ everyOther t ∧
        everyOther ((interleave xs ys ++ t).drop 1) = ys ++ everyOther (t.drop 1) := by
  intro xs
  induction xs with
  | nil =>
    intro ys t h
    have : ys = [] := by
      cases ys with
      | nil => rfl
      | cons b bs => simp at h
    subst this
    exact ⟨rfl, rfl⟩
  | cons a as ih =>
    intro ys t h
    cases ys with
    | nil => simp at h
    | cons b bs =>
      have hlen : as.length = bs.length := by simpa using h
      have hI : interleave (a :: as) (b :: bs) ++ t =
          a :: b :: (interleave as bs ++ t) := by simp [interleave]
      rw [hI]
      constructor
      · show a :: everyOther (interleave as bs ++ t) = a :: as ++ everyOther t
        rw [(ih bs t hlen).1]
        rfl
      · show everyOther (b :: (interleave as bs ++ t)) =
          b :: (bs ++ everyOther (t.drop 1))
        cases as with
        | nil =>
          have : bs = [] := by
            cases bs with
            | nil => rfl
            | cons y ys2 => simp at hlen
          subst this
          cases t with
          | nil => rfl
          | cons u t2 => rfl
        | cons a2 as2 =>
          cases bs with
          | nil => simp at hlen
          | cons b2 bs2 =>
            have hI2 : interleave (a2 :: as2) (b2 :: bs2) ++ t =
                a2 :: (b2 :: (interleave as2 bs2 ++ t)) := by simp [interleave]
            rw [hI2]
            show b :: everyOther (b2 :: (interleave as2 bs2 ++ t)) =
              b :: ((b2 :: bs2) ++ everyOther (t.drop 1))
            have h2 := (ih (b2 :: bs2) t (by simpa using hlen)).2
            rw [hI2] at h2
            simp only [List.drop] at h2
            rw [h2]

theorem zip_append_right {α β : Type} :
    ∀ (xs : List α) (ys : List β) (t : List α), xs.length = ys.length →
      List.zip (xs ++ t) ys = List.zip xs ys := by
  intro xs
  induction xs with
  | nil =>
    intro ys t h
    have : ys = [] := by
      cases ys with
      | nil => rfl
      | cons b bs => simp at h
    subst this
    simp [List.zip]
  | cons a as ih =>
    intro ys t h
    cases ys with
    | nil => simp at h
    | cons b bs =>
      have hlen : as.length = bs.length := by simpa using h
      simp only [List.cons_append, List.zip_cons_cons]
      rw [ih bs t hlen]

/-- C5 (amended): `get_meas_names` performs no length validation on the
alternating name/parameter catalog.  If the stripped response splits into the
alternation of `names` and `params`, the plain form returns `names` in
catalog order and the mapping form pairs each even-indexed token with the
following token; if an unpaired trailing token `x` is present (odd-length,
malformed catalog), no failure is raised — the plain form returns
`names ++ [x]` and the mapping form silently drops `x`. -/
theorem get_meas_names_odd_even (raw : String) (names params : List String)
    (x : String) (hlen : names.length = params.length) :
    ((splitChars ',' (stripCharsList (fun c => c = '"' || c = '\n') raw.data)).map
        List.asString = interleave names params →
      get_meas_names raw 0 = Sum.inl names ∧
        get_meas_names raw 1 = Sum.inr (names.zip params)) ∧
    ((splitChars ',' (stripCharsList (fun c => c = '"' || c = '\n') raw.data)).map
        List.asString = interleave names params ++ [x] →
      get_meas_names raw 0 = Sum.inl (names ++ [x]) ∧
        get_meas_names raw 1 = Sum.inr (names.zip params)) := by
  constructor
  · intro htok
    have h1 : everyOther (interleave names params) = names := by
      simpa [everyOther] using (everyOther_interleave names params [] hlen).1
    have h2 : everyOther ((interleave names params).drop 1) = params := by
      simpa [everyOther] using (everyOther_interleave names params [] hlen).2
    rw [List.drop_one] at h2
    constructor
    · simp [get_meas_names, htok, h1]
    · simp [get_meas_names, htok, h1, h2]
  · intro htok
    have h1 : everyOther (interleave names params ++ [x]) = names ++ [x] := by
      simpa [everyOther] using (everyOther_interleave names params [x] hlen).1
    have h2 : everyOther ((interleave names params ++ [x]).drop 1) = params := by
      simpa [everyOther] using (everyOther_interleave names params [x] hlen).2
    constructor
    · simp [get_meas_names, htok, h1]
    · simp only [get_meas_names, htok, h1, h2]
      rw [zip_append_right names params [x] hlen]
      simp

/-- Witness for `get_meas_names_odd_even` at a concrete even and a concrete
odd catalog response (with the instrument's surrounding quotes/newline). -/
theorem get_meas_names_odd_even_witness :
    get_meas_names "\"Tr1,S11,Tr2,S21\"\n" 0 = Sum.inl ["Tr1", "Tr2"] ∧
      get_meas_names "\"Tr1,S11,Tr2\"\n" 1 = Sum.inr [("Tr1", "S11")] := by
  have he := (get_meas_names_odd_even "\"Tr1,S11,Tr2,S21\"\n" ["Tr1", "Tr2"]
    ["S11", "S21"] "zz" (by decide)).1 (by decide)
  have ho := (get_meas_names_odd_even "\"Tr1,S11,Tr2\"\n" ["Tr1"]
    ["S11"] "Tr2" (by decide)).2 (by decide)
  exact ⟨he.1, ho.2⟩

/- ### Binary Frame Decoder: `get_ecal_sparam_data` -/

/-- Numpy `raw[a:b]` on a 1-D array: take the elements with indices in
`[a, b)`, silently clamping out-of-range bounds. -/
def npSlice (raw : List ℚ) (a b : Nat) : List ℚ :=
  (raw.drop a).take (b - a)

/-- Numpy 1-D addition `re + 1j*im` building a complex array, with numpy's
broadcasting rule: equal lengths pair index-for-index, a length-one operand
is repeated, anything else raises a broadcast `ValueError`.  Complex numbers
are modelled as (real, imaginary) pairs. -/
def npAddComplex (re im : List ℚ) : Except String (List (ℚ × ℚ)) :=
  if re.length = im.length then Except.ok (re.zip im)
  else
    match re, im with
    | re, [i] => Except.ok (re.map (fun r => (r, i)))
    | [r], im => Except.ok (im.map (fun i => (r, i)))
    | _, _ => Except.error "ValueError: operands could not be broadcast together"

/-- The decoded fields produced for one (path, state) block. -/
structure EcalBlock where
  freq : List ℚ
  s11 : List (ℚ × ℚ)
  s12 : Option (List (ℚ × ℚ))
  s21 : Option (List (ℚ × ℚ))
  s22 : Option (List (ℚ × ℚ))
deriving DecidableEq

/-- Embeds the per-(path, state) decode body of `get_ecal_sparam_data`
(source lines 1243–1257): the raw double block is sliced positionally into
`numPoints`-sized runs — frequency first, then the real and imaginary runs
of S11, and for the thru path `'ab'` also S12, S21, S22.  No length check of
any kind is performed on `raw`; the only possible failures are numpy
broadcast errors from the complex combination. -/
def get_ecal_sparam_data (raw : List ℚ) (numPoints : Nat) (path : String) :
    Except String EcalBlock := do
  let freq := raw.take numPoints
  let s11Real := npSlice raw numPoints (2 * numPoints)
  let s11Imag := npSlice raw (2 * numPoints) (3 * numPoints)
  let s11 ← npAddComplex s11Real s11Imag
  if path = "ab" then
    let s12Real := npSlice raw (3 * numPoints) (4 * numPoints)
    let s12Imag := npSlice raw (4 * numPoints) (5 * numPoints)
    let s12 ← npAddComplex s12Real s12Imag
    let s21Real := npSlice raw (5 * numPoints) (6 * numPoints)
    let s21Imag := npSlice raw (6 * numPoints) (7 * numPoints)
    let s21 ← npAddComplex s21Real s21Imag
    let s22Real := npSlice raw (7 * numPoints) (8 * numPoints)
    let s22Imag := npSlice raw (8 * numPoints) (9 * numPoints)
    let s22 ← npAddComplex s22Real s22Imag
    pure ⟨freq, s11, some s12, some s21, some s22⟩
  else
    pure ⟨freq, s11, none, none, none⟩

/-- Counterexample to C2: a one-port block of 5 doubles with a 2-point
frequency axis is not an exact multiple of the expected 3 blocks × 2 points,
yet the decode does not fail with any shape/layout error — it silently
returns a partial, garbled result in which the single trailing double is
broadcast as the imaginary part of both S11 points. -/
theorem get_ecal_sparam_data_no_length_check :
    get_ecal_sparam_data [1, 2, 3, 4, 5] 2 "a" =
      Except.ok ⟨[1, 2], [(3, 5), (4, 5)], none, none, none⟩ := by
  rfl

/-- C2 (amended): the multiport decode performs no length validation.  On a
well-shaped block (`3 * numPoints` doubles for a reflection path,
`9 * numPoints` for the thru path `'ab'`) it decodes the positional layout
exactly; on a short block the slices silently truncate rather than raising a
layout error — shown by the counterexample — and the only error the decode
body can raise is a numpy broadcast error. -/
theorem get_ecal_sparam_data_layout (raw : List ℚ) (n : Nat)
    (hab : raw.length = 9 * n) (raw2 : List ℚ) (h2 : raw2.length = 3 * n) :
    get_ecal_sparam_data raw n "ab" =
      Except.ok ⟨raw.take n,
        (npSlice raw n (2 * n)).zip (npSlice raw (2 * n) (3 * n)),
        some ((npSlice raw (3 * n) (4 * n)).zip (npSlice raw (4 * n) (5 * n))),
        some ((npSlice raw (5 * n) (6 * n)).zip (npSlice raw (6 * n) (7 * n))),
        some ((npSlice raw (7 * n) (8 * n)).zip (npSlice raw (8 * n) (9 * n)))⟩ ∧
    get_ecal_sparam_data raw2 n "a" =
      Except.ok ⟨raw2.take n,
        (npSlice raw2 n (2 * n)).zip (npSlice raw2 (2 * n) (3 * n)),
        none, none, none⟩ := by
  have hslice : ∀ (l : List ℚ) (a b : Nat), b ≤ l.length → a ≤ b →
      (npSlice l a b).length = b - a := by
    intro l a b hb hab2
    simp [npSlice, List.length_take, List.length_drop]
    omega
  constructor
  · have len1 : (npSlice raw n (2 * n)).length = n := by
      rw [hslice raw n (2 * n) (by omega) (by omega)]; omega
    have len2 : (npSlice raw (2 * n) (3 * n)).length = n := by
      rw [hslice raw (2 * n) (3 * n) (by omega) (by omega)]; omega
    have len3 : (npSlice raw (3 * n) (4 * n)).length = n := by
      rw [hslice raw (3 * n) (4 * n) (by omega) (by omega)]; omega
    have len4 : (npSlice raw (4 * n) (5 * n)).length = n := by
      rw [hslice raw (4 * n) (5 * n) (by omega) (by omega)]; omega
    have len5 : (npSlice raw (5 * n) (6 * n)).length = n := by
      rw [hslice raw (5 * n) (6 * n) (by omega) (by omega)]; omega
    have len6 : (npSlice raw (6 * n) (7 * n)).length = n := by
      rw [hslice raw (6 * n) (7 * n) (by omega) (by omega)]; omega
    have len7 : (npSlice raw (7 * n) (8 * n)).length = n := by
      rw [hslice raw (7 * n) (8 * n) (by omega) (by omega)]; omega
    have len8 : (npSlice raw (8 * n) (9 * n)).length = n := by
      rw [hslice raw (8 * n) (9 * n) (by omega) (by omega)]; omega
    simp [get_ecal_sparam_data, npAddComplex, len1, len2, len3, len4, len5,
      len6, len7, len8, Bind.bind, Except.bind, Pure.pure, Except.pure]
  · have len1 : (npSlice raw2 n (2 * n)).length = n := by
      rw [hslice raw2 n (2 * n) (by omega) (by omega)]; omega
    have len2 : (npSlice raw2 (2 * n) (3 * n)).length = n := by
      rw [hslice raw2 (2 * n) (3 * n) (by omega) (by omega)]; omega
    simp [get_ecal_sparam_data, npAddComplex, len1, len2, Bind.bind, Except.bind,
      Pure.pure, Except.pure]

/-- Witness for `get_ecal_sparam_data_layout` on concrete well-shaped thru
and reflection blocks. -/
theorem get_ecal_sparam_data_layout_witness :
    get_ecal_sparam_data [0, 1, 2, 3, 4, 5, 6, 7, 8] 1 "ab" =
      Except.ok ⟨[0], [(1, 2)], some [(3, 4)], some [(5, 6)], some [(7, 8)]⟩ ∧
      get_ecal_sparam_data [10, 11, 12] 1 "a" =
        Except.ok ⟨[10], [(11, 12)], none, none, none⟩ := by
  have h := get_ecal_sparam_data_layout [0, 1, 2, 3, 4, 5, 6, 7, 8] 1 (by decide)
    [10, 11, 12] (by decide)
  constructor
  · rw [h.1]; rfl
  · rw [h.2]; rfl

/- ### The instrument command channel -/

set_option maxHeartbeats 2000000 in
/-- One constructor per SCPI command f-string template written by the
embedded methods, carrying the interpolated arguments. -/
inductive Cmd where
  | guidedInit (ch : Nat)
  | guidedAcquire (ch stan : Nat)
  | guidedSave (ch : Nat) (name : String)
  | paramDefineExt (ch : Nat) (name param : String)
  | customDefine (ch : Nat) (name cls param : String)
  | paramSelect (ch : Nat) (name : String)
  | customModify (ch : Nat) (param : String)
  | windowOn (win : Nat)
  | traceFeed (win slot : Nat) (name : String)
  | csetActivate (ch : Nat) (name : String) (useStim : Nat)
  | csetDelete (name : String)
  | csetFlatten (ch : Nat) (name : String)
  | fixtureDeembed (src dst path : String) (port : Nat)
  | chanDelete (ch : Nat)
  | trigSourceImm
  | sweepModeHold (ch : Nat)
  | fsimAdd (ch circ : Nat)
  | fsimFile (ch circ : Nat) (path : String)
  | fsimModifyNoRefl (ch circ : Nat)
  | fsimExtrap (ch circ extrap : Nat)
  | fsimPorts (ch circ port : Nat)
  | fsimApply (ch : Nat)
  | fsimState (ch : Nat)
  | fsimPowerComp (ch port : Nat)
  | distSweepType (ch : Nat) (ty : String)
  | distRampStart (ch : Nat) (v : ℚ)
  | distRampStop (ch : Nat) (v : ℚ)
  | distRampPoints (ch : Nat) (v : Int)
  | distListNbw (ch : Nat) (v : ℚ)
  | distRampNbwAuto (ch auto : Nat)
  | distCarrierFreq (ch : Nat) (v : ℚ)
  | freqSpan (ch : Nat) (v : ℚ)
  | saNoiseBw (ch : Nat) (v : ℚ)
  | distCarrierLevelPort (ch : Nat) (p : String)
  | distCarrierLevel (ch : Nat) (v : ℚ)
  | mixerInputFreqFixed (ch : Nat) (resp : String)
  | mixerLoFreqFixed (ch : Nat) (v : ℚ)
  | mixerSideband (ch : Nat) (sb : String)
  | mixerCalcOutput (ch : Nat)
  | freqStart (ch : Nat) (v : ℚ)
  | freqStop (ch : Nat) (v : ℚ)
  | freqCenter (ch : Nat) (v : ℚ)
  | sweepPoints (ch : Nat) (v : Int)
  | saBwRes (ch : Nat) (v : ℚ)
  | saBwVideo (ch : Nat) (v : ℚ)
  | saDetBypass (ch bypass : Nat)
  | saDetFunc (ch : Nat) (ty : String)
deriving DecidableEq

/-- The static query responses of the instrument for one modelled run:
`displayCatalog` answers `display:catalog?`, `windowCatalog w` answers
`display:window{w}:catalog?`, `csetCatalog` answers `cset:catalog?`,
`convFreq cs p lim` answers `cset:frequency:converter? "{cs}", p, lim`,
`sweptFreq cs lim` answers `cset:frequency:swept? "{cs}", lim`,
`carrierFreqResp ch` answers the carrier-frequency query of
`configure_modx_mixer`, and `stepsResp ch` answers the guided-cal
step-count query of `run_cal`. -/
structure Env where
  displayCatalog : String
  windowCatalog : Nat → String
  csetCatalog : String
  convFreq : String → String → String → String
  sweptFreq : String → String → String
  carrierFreqResp : Nat → String
  stepsResp : Nat → String

/-- The mutable session state: the queues of pending `*opc?` outcomes and
`syst:err?` drain results (consumed in order; an exhausted queue means
every further barrier succeeds / drain is clean), and the ordered log of
commands written so far. -/
structure St where
  opcQueue : List Bool
  errQueue : List (List String)
  log : List Cmd

/-- The effect monad of the embedding: state passing with short-circuiting
exceptions that preserve the state reached at the raise point. -/
def M (α : Type) : Type := St → Except String α × St

def mPure {α : Type} (a : α) : M α := fun st => (Except.ok a, st)

def mBind {α β : Type} (x : M α) (f : α → M β) : M β := fun st =>
  match x st with
  | (Except.ok a, st') => f a st'
  | (Except.error e, st') => (Except.error e, st')

instance : Monad M where
  pure := mPure
  bind := mBind

/-- A Python `raise`: abort with the given message, keeping the state. -/
def mThrow {α : Type} (e : String) : M α := fun st => (Except.error e, st)

/-- `self.inst.write(...)`: fire-and-forget, always succeeds, appends the
command to the log. -/
def write (c : Cmd) : M Unit := fun st =>
  (Except.ok (), { st with log := st.log ++ [c] })

/-- `wait_for_opc` as seen by the command log: consumes the next pending
`*opc?` outcome; a `false` outcome is the VISA timeout raise.  The
`tempTimeout` argument only affects the session timeout (treated separately
by the standalone `wait_for_opc` model above), not the log. -/
def wait_for_opc_m (_tempTimeout : Option Nat) : M Unit := fun st =>
  match st.opcQueue with
  | [] => (Except.ok (), st)
  | b :: rest =>
    if b then (Except.ok (), { st with opcQueue := rest })
    else (Except.error "VisaIOError: timeout expired", { st with opcQueue := rest })

/-- `err_check` (source lines 96–110): drain the error queue; raise an
exception carrying every queued message if any were present. -/
def err_check : M Unit := fun st =>
  match st.errQueue with
  | [] => (Except.ok (), st)
  | errs :: rest =>
    if errs.isEmpty then (Except.ok (), { st with errQueue := rest })
    else (Except.error (String.intercalate "; " errs), { st with errQueue := rest })

/- ### Measurement Index: window management and the trace family -/

/-- The window-management block repeated verbatim in every `new_*_trace`
method (e.g. source lines 1321–1342): split the raw `display:catalog?`
response on commas (without stripping the terminator), turn the window on
when `str(win)` is not among the resulting tokens, then read the window's
trace catalog, strip it, and compute the next trace slot — `1` if the
lowered catalog contains the substring `empty`, else token count plus one
(`next_trace_slot`, the computation of source lines 1336–1339) — and feed
the named measurement into that slot.  Conditional statements are written
`let _ ← (if ...)` so the embedding is a plain chain of binds. -/
def next_trace_slot (traces : String) : Nat :=
  if strHas (pyLower traces) "empty" then 1
  else (pySplit ',' traces).length + 1

def feed_trace_window (env : Env) (measName : String) (win : Nat) : M Unit := do
  let windows := pySplit ',' env.displayCatalog
  let _ ← (if ¬ windows.contains (toString win) then
    write (Cmd.windowOn win) else pure ())
  let traces := pyStrip (env.windowCatalog win)
  let nextTrace := next_trace_slot traces
  write (Cmd.traceFeed win nextTrace measName)

/-- Embeds `new_sparam_trace` (source lines 1304–1345). -/
def new_sparam_trace (env : Env) (measName measParam : String) (win ch : Nat) :
    M Unit := do
  write (Cmd.paramDefineExt ch measName measParam)
  feed_trace_window env measName win
  wait_for_opc_m none
  err_check

def validModParams : List String :=
  ["PIn1", "POut2", "PModFile", "MSig2", "MDist2", "MDistIR2", "MGain21",
   "PGain21", "MComp21", "PGain21", "LMatch2", "CarrIn1", "CarrOut2", "NPRIn1",
   "NPROut2", "NPRDist21", "NPRPwrOut2", "ACPIn1", "ACPOut2", "ACPDist21",
   "ACPPwrIn1", "ACPPwrOut2", "EVMDistEq21", "EVMDistUn21", "EVMPwrIn1",
   "EVMPwrOut2", "ModFilter", "A", "b1", "B", "C", "b3", "D", "b4", "R1", "a1",
   "R2", "a2", "R3", "a3", "R4", "a4", "S11", "S21", "LPIn1", "LPOut1",
   "LPOut2", "PIn2", "POut1", "MSig1", "MDist1", "MDistIR1", "MGain12",
   "PGain12", "MComp12", "PGain12", "LMatch1", "CarrIn2", "CarrOut1", "NPRIn2",
   "NPROut1", "NPRDist12", "NPRPwrOut1", "ACPIn2", "ACPOut1", "ACPDist12",
   "ACPPwrIn2", "ACPPwrOut1", "EVMDistEq12", "EVMDistUn12", "EVMPwrIn2",
   "EVMPwrOut1"]

/-- Embeds `new_mod_trace` (source lines 1400–1451). -/
def new_mod_trace (env : Env) (measName measParam : String) (win ch : Nat) :
    M Unit := do
  let _ ← (if ¬ validModParams.contains measParam then
    mThrow "Invalid measParam, check measurement parameter argument."
    else pure ())
  write (Cmd.customDefine ch measName "Modulation Distortion" measParam)
  feed_trace_window env measName win
  wait_for_opc_m none
  err_check

def validModxParams : List String :=
  ["PIn1", "POut1", "POut2", "PModFile", "MSig2", "MDist2", "MDistIR2",
   "MGain21", "PGain21", "MComp21", "PGain21", "LMatch2", "CarrIn1", "CarrOut2",
   "NPRIn1", "NPROut2", "NPRDist21", "NPRPwrOut2", "ACPIn1", "ACPOut2",
   "ACPDist21", "ACPPwrIn1", "ACPPwrOut2", "EVMDistEq21", "EVMDistUn21",
   "EVMPwrIn1", "EVMPwrOut2", "ModFilter", "A", "b1", "B", "C", "b3", "D",
   "b4", "R1", "a1", "R2", "a2", "R3", "a3", "R4", "a4", "S11", "S21", "LPIn1",
   "LPOut1", "LPOut2", "PIn2", "POut2", "POut1", "MSig1", "MDist1", "MDistIR1",
   "MGain12", "PGain12", "MComp12", "PGain12", "LMatch1", "CarrIn2", "CarrOut1",
   "NPRIn2", "NPROut1", "NPRDist12", "NPRPwrOut1", "ACPIn2", "ACPOut1",
   "ACPDist12", "ACPPwrIn2", "ACPPwrOut1", "EVMDistEq12", "EVMDistUn12",
   "EVMPwrIn2", "EVMPwrOut1"]

/-- Embeds `new_modx_trace` (source lines 2076–2135). -/
def new_modx_trace (env : Env) (measName measParam : String)
    (modify win ch : Nat) : M Unit := do
  let _ ← (if ¬ validModxParams.contains measParam then
    mThrow "Invalid measParam, check measurement parameter argument."
    else pure ())
  let _ ← (if modify ≠ 0 then do
      write (Cmd.paramSelect ch measName)
      write (Cmd.customModify ch measParam)
      err_check
    else do
      write (Cmd.customDefine ch measName "Modulation Distortion Converters" measParam)
      err_check
      feed_trace_window env measName win)
  wait_for_opc_m none
  err_check

def validGcaParams : List String :=
  ["S21", "S11", "S12", "S22", "CompIn21", "CompOut21", "DeltaGain21",
   "CompGain21", "CompS11", "RefS21", "CompIn12", "CompOut12", "DeltaGain12",
   "CompGain12", "CompS22", "RefS12"]

/-- Embeds `new_gca_trace` (source lines 2193–2239).  Note: the create
branch ends with `wait_for_opc` and has no final `err_check`. -/
def new_gca_trace (env : Env) (measName measParam : String)
    (modify win ch : Nat) : M Unit := do
  let _ ← (if ¬ validGcaParams.contains measParam then
    mThrow "Invalid measParam, check measurement parameter argument."
    else pure ())
  if modify ≠ 0 then
    write (Cmd.paramSelect ch measName)
    write (Cmd.customModify ch measParam)
    err_check
  else
    write (Cmd.customDefine ch measName "Gain Compression" measParam)
    feed_trace_window env measName win
    wait_for_opc_m none

def validGcaxParams : List String :=
  ["S21", "S11", "S12", "S22", "CompIn21", "CompOut21", "DeltaGain21",
   "CompGain21", "CompS11", "RefS21", "SC21", "SC12", "Ipwr", "RevIPwr",
   "Opwr", "RevOPwr"]

/-- Embeds `new_gcax_trace` (source lines 2381–2420). -/
def new_gcax_trace (env : Env) (measName measParam : String) (win ch : Nat) :
    M Unit := do
  let _ ← (if ¬ validGcaxParams.contains measParam then
    mThrow "Invalid measParam, check measurement parameter argument."
    else pure ())
  write (Cmd.customDefine ch measName "Gain Compression Converters" measParam)
  feed_trace_window env measName win
  wait_for_opc_m none

def validNfParams : List String :=
  ["NF", "ENR", "T-Eff", "DUTRNP", "DUTRNPI", "SYSRNP", "SYSRNPI", "DUTNPD",
   "DUTNPDI", "SYSNPD", "SYSNPDI", "OvrRng", "T-Rcvr", "S11", "S21", "S12",
   "S22", "GammaOpt", "Rn", "NFMin"]

/-- Embeds `new_nf_trace` (source lines 2725–2772).  The final `err_check`
runs in both branches. -/
def new_nf_trace (env : Env) (measName measParam : String)
    (modify win ch : Nat) : M Unit := do
  let _ ← (if ¬ validNfParams.contains measParam then
    mThrow "Invalid measParam, check measurement parameter argument."
    else pure ())
  let _ ← (if modify ≠ 0 then do
      write (Cmd.paramSelect ch measName)
      write (Cmd.customModify ch measParam)
      err_check
    else do
      write (Cmd.customDefine ch measName "Noise Figure Cold Source" measParam)
      feed_trace_window env measName win
      wait_for_opc_m none)
  err_check

def validNfxParams : List String :=
  ["NF", "ENR", "T-Eff", "DUTRNP", "DUTRNPI", "SYSRNP", "SYSRNPI", "DUTNPD",
   "DUTNPDI", "SYSNPD", "SYSNPDI", "OvrRng", "T-Rcvr", "S11", "SC21", "SC12",
   "S22", "Ipwr", "RevIPwr", "Opwr", "RevOPwr"]

/-- Embeds `new_nfx_trace` (source lines 2846–2893). -/
def new_nfx_trace (env : Env) (measName measParam : String)
    (modify win ch : Nat) : M Unit := do
  let _ ← (if ¬ validNfxParams.contains measParam then
    mThrow "Invalid measParam, check measurement parameter argument."
    else pure ())
  let _ ← (if modify ≠ 0 then do
      write (Cmd.paramSelect ch measName)
      write (Cmd.customModify ch measParam)
      err_check
    else do
      write (Cmd.customDefine ch measName "Noise Figure Converters" measParam)
      feed_trace_window env measName win
      wait_for_opc_m none)
  err_check

def validSmcParams : List String :=
  ["SC21", "SC12", "S11", "S22", "Ipwr", "RevIPwr", "Opwr", "RevOPwr"]

/-- Embeds `new_smc_trace` (source lines 2660–2699). -/
def new_smc_trace (env : Env) (measName measParam : String) (win ch : Nat) :
    M Unit := do
  let _ ← (if ¬ validSmcParams.contains measParam then
    mThrow "Invalid measParam, check measurement parameter argument."
    else pure ())
  write (Cmd.customDefine ch measName "Scalar Mixer/Converter" measParam)
  feed_trace_window env measName win
  wait_for_opc_m none

/- ### Cal-set loading, trigger hold, sweep configuration -/

/-- Embeds `list_cal_sets` (source lines 692–701). -/
def list_cal_sets (env : Env) : List String :=
  pySplit ',' (removeChar '"' (pyRStrip env.csetCatalog))

/-- Embeds `load_cal_set` (source lines 703–718). -/
def load_cal_set (env : Env) (calSet : String) (useCalSetStimulus ch : Nat) :
    M Unit := do
  let availableCalSets := list_cal_sets env
  let _ ← (if ¬ availableCalSets.contains calSet then
    mThrow "Selected cal set does not exist." else pure ())
  write (Cmd.csetActivate ch calSet useCalSetStimulus)
  wait_for_opc_m none
  err_check

/-- Embeds `hold_trigger` (source lines 323–331). -/
def hold_trigger (ch : Nat) : M Unit := do
  write Cmd.trigSourceImm
  write (Cmd.sweepModeHold ch)

/-- Embeds `configure_mod_sweep` (source lines 1453–1491).  The `sweepType`
validation precedes every command; the `powerContext` validation sits in the
middle of the command sequence, after the sweep-type/frequency/bandwidth
commands have already been written. -/
def configure_mod_sweep (sweepType : String) (centerFreq span noiseBw power : ℚ)
    (powerContext : String) (startPower stopPower : ℚ) (powerPoints : Int)
    (autoIncreaseNoiseBw ch : Nat) : M Unit := do
  let validSweepTypes := ["fixed", "power"]
  let _ ← (if ¬ validSweepTypes.contains (pyLower sweepType) then
    mThrow "Invalid sweepType, must be fixed or power." else pure ())
  write (Cmd.distSweepType ch sweepType)
  let _ ← (if pyLower sweepType = "power" then do
      write (Cmd.distRampStart ch startPower)
      write (Cmd.distRampStop ch stopPower)
      write (Cmd.distRampPoints ch powerPoints)
      write (Cmd.distListNbw ch noiseBw)
      write (Cmd.distRampNbwAuto ch autoIncreaseNoiseBw)
    else pure ())
  write (Cmd.distCarrierFreq ch centerFreq)
  write (Cmd.freqSpan ch span)
  write (Cmd.saNoiseBw ch noiseBw)
  let validPowerContexts := ["din1", "dout2"]
  let _ ← (if ¬ validPowerContexts.contains (pyLower powerContext) then
    mThrow "Invalid powerContext, must be din1 or dout2." else pure ())
  write (Cmd.distCarrierLevelPort ch powerContext)
  write (Cmd.distCarrierLevel ch power)
  wait_for_opc_m none

/-- Embeds `configure_modx_mixer` (source lines 2137–2159). -/
def configure_modx_mixer (env : Env) (loFreq : ℚ) (sideband : String)
    (ch : Nat) : M Unit := do
  let inputFreq := env.carrierFreqResp ch
  write (Cmd.mixerInputFreqFixed ch inputFreq)
  write (Cmd.mixerLoFreqFixed ch loFreq)
  wait_for_opc_m none
  let validSidebands := ["low", "high"]
  let _ ← (if ¬ validSidebands.contains (pyLower sideband) then
    mThrow "Invalid sideband, must be low or high." else pure ())
  write (Cmd.mixerSideband ch sideband)
  write (Cmd.mixerCalcOutput ch)
  wait_for_opc_m none

/-- Embeds `configure_sa_sweep` (source lines 2551–2597).  The
`detectorType` validation sits after the frequency/points/bandwidth/detector
state commands have already been written. -/
def configure_sa_sweep (centerFreq span startFreq stopFreq : ℚ)
    (numPoints : Int) (resBw videoBw : ℚ) (detectorType : String)
    (useStartStop resBwAuto videoBwAuto detectorBypass ch : Nat) : M Unit := do
  let _ ← (if useStartStop ≠ 0 then do
      write (Cmd.freqStart ch startFreq)
      write (Cmd.freqStop ch stopFreq)
    else do
      write (Cmd.freqCenter ch centerFreq)
      write (Cmd.freqSpan ch span))
  write (Cmd.sweepPoints ch numPoints)
  let _ ← (if resBwAuto = 0 then write (Cmd.saBwRes ch resBw) else pure ())
  let _ ← (if videoBwAuto = 0 then write (Cmd.saBwVideo ch videoBw) else pure ())
  write (Cmd.saDetBypass ch detectorBypass)
  let validDetectorTypes :=
    ["peak", "average", "sample", "normal", "negpeak", "psample", "paverage",
     "faspeak"]
  let _ ← (if ¬ validDetectorTypes.contains (pyLower detectorType) then
    mThrow "Invalid detectorType." else pure ())
  let _ ← (if detectorBypass = 0 then write (Cmd.saDetFunc ch detectorType)
    else pure ())
  write (Cmd.sweepModeHold ch)

/- ### Log accounting -/

def isGuidedAcquire : Cmd → Bool
  | Cmd.guidedAcquire _ _ => true
  | _ => false

def isGuidedSave : Cmd → Bool
  | Cmd.guidedSave _ _ => true
  | _ => false

def isChanDelete : Cmd → Bool
  | Cmd.chanDelete _ => true
  | _ => false

/-- `OnlyAdds P x`: whatever the outcome, running `x` appends to the command
log only commands satisfying `P`, never touching earlier entries. -/
def OnlyAdds (P : Cmd → Prop) {α : Type} (x : M α) : Prop :=
  ∀ st : St, ∃ d : List Cmd,
    ((x st).2).log = st.log ++ d ∧ ∀ c ∈ d, P c

theorem onlyAdds_mPure {P : Cmd → Prop} {α : Type} (a : α) :
    OnlyAdds P (mPure a) := by
  intro st
  exact ⟨[], by simp [mPure], by simp⟩

theorem onlyAdds_pure {P : Cmd → Prop} {α : Type} (a : α) :
    OnlyAdds P (pure a : M α) :=
  onlyAdds_mPure a

theorem onlyAdds_mThrow {P : Cmd → Prop} {α : Type} (e : String) :
    OnlyAdds P (mThrow e : M α) := by
  intro st
  exact ⟨[], by simp [mThrow], by simp⟩

theorem onlyAdds_write {P : Cmd → Prop} {c : Cmd} (h : P c) :
    OnlyAdds P (write c) := by
  intro st
  exact ⟨[c], by simp [write], by simpa⟩

theorem onlyAdds_wait {P : Cmd → Prop} (t : Option Nat) :
    OnlyAdds P (wait_for_opc_m t) := by
  intro st
  refine ⟨[], ?_, by simp⟩
  unfold wait_for_opc_m
  rcases st.opcQueue with _ | ⟨b, rest⟩ <;> [simp; cases b] <;> simp

theorem onlyAdds_err_check {P : Cmd → Prop} : OnlyAdds P err_check := by
  intro st
  refine ⟨[], ?_, by simp⟩
  unfold err_check
  rcases st.errQueue with _ | ⟨errs, rest⟩ <;>
    [simp; rcases errs with _ | ⟨e, es⟩] <;> simp [List.isEmpty]

theorem onlyAdds_bind {P : Cmd → Prop} {α β : Type} {x : M α} {f : α → M β}
    (hx : OnlyAdds P x) (hf : ∀ a, OnlyAdds P (f a)) :
    OnlyAdds P (x >>= f) := by
  intro st
  show ∃ d, ((mBind x f st).2).log = st.log ++ d ∧ ∀ c ∈ d, P c
  unfold mBind
  rcases hxs : x st with ⟨r, st'⟩
  rcases hx st with ⟨d1, h1, hp1⟩
  rw [hxs] at h1
  cases r with
  | error e => exact ⟨d1, by simpa using h1, hp1⟩
  | ok a =>
    rcases hf a st' with ⟨d2, h2, hp2⟩
    refine ⟨d1 ++ d2, ?_, ?_⟩
    · simp only []
      rw [h2, h1, List.append_assoc]
    · intro c hc
      rcases List.mem_append.1 hc with h | h
      exacts [hp1 c h, hp2 c h]

theorem onlyAdds_ite {P : Cmd → Prop} {α : Type} (cond : Prop) [Decidable cond]
    {x y : M α} (hx : OnlyAdds P x) (hy : OnlyAdds P y) :
    OnlyAdds P (if cond then x else y) := by
  by_cases h : cond <;> simp [h] <;> assumption

theorem onlyAdds_mono {P Q : Cmd → Prop} {α : Type} {x : M α}
    (hx : OnlyAdds P x) (hpq : ∀ c, P c → Q c) : OnlyAdds Q x := by
  intro st
  rcases hx st with ⟨d, h1, h2⟩
  exact ⟨d, h1, fun c hc => hpq c (h2 c hc)⟩

/-- Counting consequence: an operation that only adds commands on which the
counted predicate is false leaves the count unchanged. -/
theorem countP_of_onlyAdds {P : Cmd → Prop} {α : Type} {x : M α}
    (hx : OnlyAdds P x) (p : Cmd → Bool) (hp : ∀ c, P c → p c = false)
    (st : St) : (((x st).2).log).countP p = (st.log).countP p := by
  rcases hx st with ⟨d, h1, h2⟩
  rw [h1, List.countP_append]
  have : d.countP p = 0 := by
    rw [List.countP_eq_zero]
    intro c hc
    simp [hp c (h2 c hc)]
  omega

/-- Head-of-log consequence: once the log is nonempty, no later operation
changes its first entry. -/
theorem head_of_onlyAdds {P : Cmd → Prop} {α : Type} {x : M α}
    (hx : OnlyAdds P x) (st : St) (h : st.log ≠ []) :
    (((x st).2).log).head? = (st.log).head? := by
  rcases hx st with ⟨d, h1, _⟩
  rw [h1]
  cases hlog : st.log with
  | nil => exact absurd hlog h
  | cons a t => simp

/-- Commands that are neither the scratch-channel delete, the guided save,
nor a guided acquire: everything the compose/trace/configure helpers write. -/
def benign (c : Cmd) : Prop :=
  isChanDelete c = false ∧ isGuidedSave c = false ∧ isGuidedAcquire c = false

theorem feed_trace_window_onlyAdds (env : Env) (measName : String) (win : Nat) :
    OnlyAdds benign (feed_trace_window env measName win) := by
  unfold feed_trace_window
  apply onlyAdds_bind
  · exact onlyAdds_ite _ (onlyAdds_write ⟨rfl, rfl, rfl⟩) (onlyAdds_pure _)
  · intro _
    exact onlyAdds_write ⟨rfl, rfl, rfl⟩

theorem new_sparam_trace_onlyAdds (env : Env) (mn mp : String) (win ch : Nat) :
    OnlyAdds benign (new_sparam_trace env mn mp win ch) := by
  unfold new_sparam_trace
  apply onlyAdds_bind (onlyAdds_write ⟨rfl, rfl, rfl⟩)
  intro _
  apply onlyAdds_bind (feed_trace_window_onlyAdds env mn win)
  intro _
  exact onlyAdds_bind (onlyAdds_wait _) (fun _ => onlyAdds_err_check)

theorem new_mod_trace_onlyAdds (env : Env) (mn mp : String) (win ch : Nat) :
    OnlyAdds benign (new_mod_trace env mn mp win ch) := by
  unfold new_mod_trace
  apply onlyAdds_bind (onlyAdds_ite _ (onlyAdds_mThrow _) (onlyAdds_pure _))
  intro _
  apply onlyAdds_bind (onlyAdds_write ⟨rfl, rfl, rfl⟩)
  intro _
  apply onlyAdds_bind (feed_trace_window_onlyAdds env mn win)
  intro _
  exact onlyAdds_bind (onlyAdds_wait _) (fun _ => onlyAdds_err_check)

theorem new_modx_trace_onlyAdds (env : Env) (mn mp : String)
    (modify win ch : Nat) :
    OnlyAdds benign (new_modx_trace env mn mp modify win ch) := by
  unfold new_modx_trace
  apply onlyAdds_bind (onlyAdds_ite _ (onlyAdds_mThrow _) (onlyAdds_pure _))
  intro _
  apply onlyAdds_bind
  · apply onlyAdds_ite
    · apply onlyAdds_bind (onlyAdds_write ⟨rfl, rfl, rfl⟩)
      intro _
      exact onlyAdds_bind (onlyAdds_write ⟨rfl, rfl, rfl⟩)
        (fun _ => onlyAdds_err_check)
    · apply onlyAdds_bind (onlyAdds_write ⟨rfl, rfl, rfl⟩)
      intro _
      apply onlyAdds_bind onlyAdds_err_check
      intro _
      exact feed_trace_window_onlyAdds env mn win
  · intro _
    exact onlyAdds_bind (onlyAdds_wait _) (fun _ => onlyAdds_err_check)

theorem new_gca_trace_onlyAdds (env : Env) (mn mp : String)
    (modify win ch : Nat) :
    OnlyAdds benign (new_gca_trace env mn mp modify win ch) := by
  unfold new_gca_trace
  apply onlyAdds_bind (onlyAdds_ite _ (onlyAdds_mThrow _) (onlyAdds_pure _))
  intro _
  apply onlyAdds_ite
  · apply onlyAdds_bind (onlyAdds_write ⟨rfl, rfl, rfl⟩)
    intro _
    exact onlyAdds_bind (onlyAdds_write ⟨rfl, rfl, rfl⟩)
      (fun _ => onlyAdds_err_check)
  · apply onlyAdds_bind (onlyAdds_write ⟨rfl, rfl, rfl⟩)
    intro _
    exact onlyAdds_bind (feed_trace_window_onlyAdds env mn win)
      (fun _ => onlyAdds_wait _)

theorem new_gcax_trace_onlyAdds (env : Env) (mn mp : String) (win ch : Nat) :
    OnlyAdds benign (new_gcax_trace env mn mp win ch) := by
  unfold new_gcax_trace
  apply onlyAdds_bind (onlyAdds_ite _ (onlyAdds_mThrow _) (onlyAdds_pure _))
  intro _
  apply onlyAdds_bind (onlyAdds_write ⟨rfl, rfl, rfl⟩)
  intro _
  exact onlyAdds_bind (feed_trace_window_onlyAdds env mn win)
    (fun _ => onlyAdds_wait _)

theorem new_nf_trace_onlyAdds (env : Env) (mn mp : String)
    (modify win ch : Nat) :
    OnlyAdds benign (new_nf_trace env mn mp modify win ch) := by
  unfold new_nf_trace
  apply onlyAdds_bind (onlyAdds_ite _ (onlyAdds_mThrow _) (onlyAdds_pure _))
  intro _
  apply onlyAdds_bind
  · apply onlyAdds_ite
    · apply onlyAdds_bind (onlyAdds_write ⟨rfl, rfl, rfl⟩)
      intro _
      exact onlyAdds_bind (onlyAdds_write ⟨rfl, rfl, rfl⟩)
        (fun _ => onlyAdds_err_check)
    · apply onlyAdds_bind (onlyAdds_write ⟨rfl, rfl, rfl⟩)
      intro _
      exact onlyAdds_bind (feed_trace_window_onlyAdds env mn win)
        (fun _ => onlyAdds_wait _)
  · intro _
    exact onlyAdds_err_check

theorem new_nfx_trace_onlyAdds (env : Env) (mn mp : String)
    (modify win ch : Nat) :
    OnlyAdds benign (new_nfx_trace env mn mp modify win ch) := by
  unfold new_nfx_trace
  apply onlyAdds_bind (onlyAdds_ite _ (onlyAdds_mThrow _) (onlyAdds_pure _))
  intro _
  apply onlyAdds_bind
  · apply onlyAdds_ite
    · apply onlyAdds_bind (onlyAdds_write ⟨rfl, rfl, rfl⟩)
      intro _
      exact onlyAdds_bind (onlyAdds_write ⟨rfl, rfl, rfl⟩)
        (fun _ => onlyAdds_err_check)
    · apply onlyAdds_bind (onlyAdds_write ⟨rfl, rfl, rfl⟩)
      intro _
      exact onlyAdds_bind (feed_trace_window_onlyAdds env mn win)
        (fun _ => onlyAdds_wait _)
  · intro _
    exact onlyAdds_err_check

theorem new_smc_trace_onlyAdds (env : Env) (mn mp : String) (win ch : Nat) :
    OnlyAdds benign (new_smc_trace env mn mp win ch) := by
  unfold new_smc_trace
  apply onlyAdds_bind (onlyAdds_ite _ (onlyAdds_mThrow _) (onlyAdds_pure _))
  intro _
  apply onlyAdds_bind (onlyAdds_write ⟨rfl, rfl, rfl⟩)
  intro _
  exact onlyAdds_bind (feed_trace_window_onlyAdds env mn win)
    (fun _ => onlyAdds_wait _)

theorem load_cal_set_onlyAdds (env : Env) (cs : String) (u ch : Nat) :
    OnlyAdds benign (load_cal_set env cs u ch) := by
  unfold load_cal_set
  apply onlyAdds_bind (onlyAdds_ite _ (onlyAdds_mThrow _) (onlyAdds_pure _))
  intro _
  apply onlyAdds_bind (onlyAdds_write ⟨rfl, rfl, rfl⟩)
  intro _
  exact onlyAdds_bind (onlyAdds_wait _) (fun _ => onlyAdds_err_check)

theorem hold_trigger_onlyAdds (ch : Nat) : OnlyAdds benign (hold_trigger ch) := by
  unfold hold_trigger
  exact onlyAdds_bind (onlyAdds_write ⟨rfl, rfl, rfl⟩)
    (fun _ => onlyAdds_write ⟨rfl, rfl, rfl⟩)

theorem configure_mod_sweep_onlyAdds (ty : String) (c s n pw : ℚ)
    (pc : String) (sp stp : ℚ) (pp : Int) (auto ch : Nat) :
    OnlyAdds benign (configure_mod_sweep ty c s n pw pc sp stp pp auto ch) := by
  unfold configure_mod_sweep
  apply onlyAdds_bind (onlyAdds_ite _ (onlyAdds_mThrow _) (onlyAdds_pure _))
  intro _
  apply onlyAdds_bind (onlyAdds_write ⟨rfl, rfl, rfl⟩)
  intro _
  apply onlyAdds_bind
  · apply onlyAdds_ite
    · apply onlyAdds_bind (onlyAdds_write ⟨rfl, rfl, rfl⟩)
      intro _
      apply onlyAdds_bind (onlyAdds_write ⟨rfl, rfl, rfl⟩)
      intro _
      apply onlyAdds_bind (onlyAdds_write ⟨rfl, rfl, rfl⟩)
      intro _
      exact onlyAdds_bind (onlyAdds_write ⟨rfl, rfl, rfl⟩)
        (fun _ => onlyAdds_write ⟨rfl, rfl, rfl⟩)
    · exact onlyAdds_pure _
  · intro _
    apply onlyAdds_bind (onlyAdds_write ⟨rfl, rfl, rfl⟩)
    intro _
    apply onlyAdds_bind (onlyAdds_write ⟨rfl, rfl, rfl⟩)
    intro _
    apply onlyAdds_bind (onlyAdds_write ⟨rfl, rfl, rfl⟩)
    intro _
    apply onlyAdds_bind (onlyAdds_ite _ (onlyAdds_mThrow _) (onlyAdds_pure _))
    intro _
    apply onlyAdds_bind (onlyAdds_write ⟨rfl, rfl, rfl⟩)
    intro _
    exact onlyAdds_bind (onlyAdds_write ⟨rfl, rfl, rfl⟩)
      (fun _ => onlyAdds_wait _)

theorem configure_modx_mixer_onlyAdds (env : Env) (lo : ℚ) (sb : String)
    (ch : Nat) : OnlyAdds benign (configure_modx_mixer env lo sb ch) := by
  unfold configure_modx_mixer
  apply onlyAdds_bind (onlyAdds_write ⟨rfl, rfl, rfl⟩)
  intro _
  apply onlyAdds_bind (onlyAdds_write ⟨rfl, rfl, rfl⟩)
  intro _
  apply onlyAdds_bind (onlyAdds_wait _)
  intro _
  apply onlyAdds_bind (onlyAdds_ite _ (onlyAdds_mThrow _) (onlyAdds_pure _))
  intro _
  apply onlyAdds_bind (onlyAdds_write ⟨rfl, rfl, rfl⟩)
  intro _
  exact onlyAdds_bind (onlyAdds_write ⟨rfl, rfl, rfl⟩) (fun _ => onlyAdds_wait _)

/- ### Calibration Orchestrator -/

/-- Embeds `measure_cal_standard` (source lines 835–854): write the guided
acquire command for the standard, block on the completion barrier with the
caller's temporary timeout, then drain the error queue (raising if it was
non-empty).  The `blocking` argument is accepted but unused, as in the
source's current code path. -/
def measure_cal_standard (standardNumber blocking timeoutMs ch : Nat) :
    M Unit := do
  write (Cmd.guidedAcquire ch standardNumber)
  wait_for_opc_m (some timeoutMs)
  err_check

/-- Total size of the consumable outcome queues; the termination measure of
the retry loop. -/
def stSize (st : St) : Nat := st.opcQueue.length + st.errQueue.length

/-- An operation that never grows the outcome queues and strictly consumes
from them whenever it raises. -/
def Shrinks {α : Type} (x : M α) : Prop :=
  ∀ st : St, stSize ((x st).2) ≤ stSize st ∧
    ∀ e, (x st).1 = Except.error e → stSize ((x st).2) < stSize st

theorem shrinks_write (c : Cmd) : Shrinks (write c) := by
  intro st
  constructor
  · simp [write, stSize]
  · intro e he
    simp [write] at he

theorem shrinks_wait (t : Option Nat) : Shrinks (wait_for_opc_m t) := by
  intro st
  unfold wait_for_opc_m
  cases hq : st.opcQueue with
  | nil => simp
  | cons b rest =>
    cases b <;> simp [stSize, hq]

theorem shrinks_err_check : Shrinks err_check := by
  intro st
  unfold err_check
  cases hq : st.errQueue with
  | nil => simp
  | cons errs rest =>
    by_cases he : errs.isEmpty <;> simp [stSize, hq, he]

theorem shrinks_bind {α β : Type} {x : M α} {f : α → M β}
    (hx : Shrinks x) (hf : ∀ a, Shrinks (f a)) : Shrinks (x >>= f) := by
  intro st
  show stSize ((mBind x f st).2) ≤ stSize st ∧
    ∀ e, (mBind x f st).1 = Except.error e → stSize ((mBind x f st).2) < stSize st
  unfold mBind
  rcases hxs : x st with ⟨r, st'⟩
  have hx1 : stSize st' ≤ stSize st := by
    have := (hx st).1
    rw [hxs] at this
    exact this
  cases r with
  | error e =>
    have : stSize st' < stSize st := by
      have := (hx st).2 e (by rw [hxs])
      rw [hxs] at this
      exact this
    exact ⟨le_of_lt this, fun _ _ => this⟩
  | ok a =>
    constructor
    · exact le_trans ((hf a st').1) hx1
    · intro e he
      exact lt_of_lt_of_le ((hf a st').2 e he) hx1

theorem shrinks_measure_cal_standard (s b t ch : Nat) :
    Shrinks (measure_cal_standard s b t ch) := by
  unfold measure_cal_standard
  exact shrinks_bind (shrinks_write _)
    (fun _ => shrinks_bind (shrinks_wait _) (fun _ => shrinks_err_check))

/-- The `while successFlag == 0` retry loop of `run_cal` (source lines
883–892): measure the standard; on any exception, print, wait for the
operator (a no-op in the model) and retry the identical step; on success,
exit the loop.  There is no retry budget of any kind — the loop runs until
a measurement attempt succeeds. -/
def run_cal_retry (s blocking timeoutMs ch : Nat) (st : St) :
    Except String Unit × St :=
  match h : measure_cal_standard s blocking timeoutMs ch st with
  | (Except.ok _, st') => (Except.ok (), st')
  | (Except.error _, st') => run_cal_retry s blocking timeoutMs ch st'
termination_by stSize st
decreasing_by
  have hlt := (shrinks_measure_cal_standard s blocking timeoutMs ch st).2 _
    (by rw [h])
  rw [h] at hlt
  exact hlt

theorem run_cal_retry_eq_ok {s b t ch : Nat} {st st' : St} {a : Unit}
    (h : measure_cal_standard s b t ch st = (Except.ok a, st')) :
    run_cal_retry s b t ch st = (Except.ok (), st') := by
  rw [run_cal_retry, h]

theorem run_cal_retry_eq_err {s b t ch : Nat} {st st' : St} {e : String}
    (h : measure_cal_standard s b t ch st = (Except.error e, st')) :
    run_cal_retry s b t ch st = run_cal_retry s b t ch st' := by
  rw [run_cal_retry, h]

/-- Commands that are neither the scratch-channel delete nor the guided
save: everything a calibration measurement attempt writes. -/
def preservesCal (c : Cmd) : Prop :=
  isChanDelete c = false ∧ isGuidedSave c = false

theorem measure_cal_standard_onlyAdds (s b t ch : Nat) :
    OnlyAdds preservesCal (measure_cal_standard s b t ch) := by
  unfold measure_cal_standard
  apply onlyAdds_bind (onlyAdds_write ⟨rfl, rfl⟩)
  intro _
  exact onlyAdds_bind (onlyAdds_wait _) (fun _ => onlyAdds_err_check)

/-- The retry loop always exits successfully (the environment's finite
outcome queues guarantee the instrument eventually accepts the step), and it
writes only acquire/window-class commands — never a save or a channel
delete. -/
theorem run_cal_retry_spec (s b t ch : Nat) :
    ∀ (n : Nat) (st : St), stSize st ≤ n →
      (run_cal_retry s b t ch st).1 = Except.ok () ∧
        ∃ d, ((run_cal_retry s b t ch st).2).log = st.log ++ d ∧
          ∀ c ∈ d, preservesCal c := by
  intro n
  induction n with
  | zero =>
    intro st hst
    rcases hm : measure_cal_standard s b t ch st with ⟨r, st'⟩
    cases r with
    | ok a =>
      rw [run_cal_retry_eq_ok hm]
      rcases measure_cal_standard_onlyAdds s b t ch st with ⟨d, hd, hp⟩
      rw [hm] at hd
      exact ⟨rfl, d, hd, hp⟩
    | error e =>
      exfalso
      have hlt := (shrinks_measure_cal_standard s b t ch st).2 e (by rw [hm])
      omega
  | succ k ih =>
    intro st hst
    rcases hm : measure_cal_standard s b t ch st with ⟨r, st'⟩
    cases r with
    | ok a =>
      rw [run_cal_retry_eq_ok hm]
      rcases measure_cal_standard_onlyAdds s b t ch st with ⟨d, hd, hp⟩
      rw [hm] at hd
      exact ⟨rfl, d, hd, hp⟩
    | error e =>
      rw [run_cal_retry_eq_err hm]
      have hlt := (shrinks_measure_cal_standard s b t ch st).2 e (by rw [hm])
      rw [hm] at hlt
      have hlt' : stSize st' < stSize st := by simpa using hlt
      have hrec := ih st' (by omega)
      rcases measure_cal_standard_onlyAdds s b t ch st with ⟨d1, hd1, hp1⟩
      rw [hm] at hd1
      rcases hrec.2 with ⟨d2, hd2, hp2⟩
      refine ⟨hrec.1, d1 ++ d2, ?_, ?_⟩
      · rw [hd2, hd1, List.append_assoc]
      · intro c hc
        rcases List.mem_append.1 hc with h | h
        exacts [hp1 c h, hp2 c h]

/-- The step loop of `run_cal` (source lines 876–892): iterate the remaining
steps, running the retry loop for each (the description query and operator
prompt have no effect on instrument state). -/
def run_cal_steps (blocking timeoutMs ch : Nat) : Nat → Nat → M Unit
  | 0, _ => mPure ()
  | Nat.succ k, s =>
    (run_cal_retry s blocking timeoutMs ch : M Unit) >>= fun _ =>
      run_cal_steps blocking timeoutMs ch k (s + 1)

theorem run_cal_steps_spec (b t ch : Nat) :
    ∀ (k s : Nat) (st : St),
      (run_cal_steps b t ch k s st).1 = Except.ok () ∧
        ∃ d, ((run_cal_steps b t ch k s st).2).log = st.log ++ d ∧
          ∀ c ∈ d, preservesCal c := by
  intro k
  induction k with
  | zero =>
    intro s st
    exact ⟨rfl, [], by simp [run_cal_steps, mPure], by simp⟩
  | succ k ih =>
    intro s st
    have hretry := run_cal_retry_spec s b t ch (stSize st) st le_rfl
    constructor
    · show (mBind (run_cal_retry s b t ch) _ st).1 = Except.ok ()
      unfold mBind
      rcases hr : run_cal_retry s b t ch st with ⟨r, st'⟩
      cases r with
      | error e =>
        rw [hr] at hretry
        exact absurd hretry.1 (by simp)
      | ok a => exact (ih (s + 1) st').1
    · show ∃ d, ((mBind (run_cal_retry s b t ch) _ st).2).log = st.log ++ d ∧ _
      unfold mBind
      rcases hr : run_cal_retry s b t ch st with ⟨r, st'⟩
      cases r with
      | error e =>
        rw [hr] at hretry
        exact absurd hretry.1 (by simp)
      | ok a =>
        rw [hr] at hretry
        rcases hretry.2 with ⟨d1, hd1, hp1⟩
        rcases (ih (s + 1) st').2 with ⟨d2, hd2, hp2⟩
        refine ⟨d1 ++ d2, ?_, ?_⟩
        · rw [hd2, hd1, List.append_assoc]
        · intro c hc
          rcases List.mem_append.1 hc with h | h
          exacts [hp1 c h, hp2 c h]

/-- Embeds `run_cal` (source lines 856–910): initiate the guided sequence,
parse the step count, loop every step through the retry loop, then compose
the saved name — appending the formatted timestamp when
`calSetTimestampSuffix` is truthy — and write the save command.  `now`
stands for the `datetime.now(tz)` read; `promptUser` only affects operator
prompts, which have no instrument effect. -/
def int_of_resp (s : String) : M Int :=
  match pyInt s with
  | some n => mPure n
  | none => mThrow "ValueError: invalid literal for int"

theorem int_of_resp_eq {s : String} {k : Int} (h : pyInt s = some k) :
    int_of_resp s = mPure k := by
  unfold int_of_resp
  rw [h]

def run_cal (env : Env) (calSetName : String)
    (calSetTimestampSuffix blocking timeoutMs ch promptUser : Nat)
    (now : PyTimestamp) : M Unit := do
  write (Cmd.guidedInit ch)
  let numSteps ← int_of_resp (env.stepsResp ch)
  run_cal_steps blocking timeoutMs ch numSteps.toNat 1
  let fullCalSetName :=
    if calSetTimestampSuffix ≠ 0 then
      calSetName ++ "_" ++ fmtTimestamp now
    else calSetName
  write (Cmd.guidedSave ch fullCalSetName)

/- ### Small-step evaluation lemmas -/

@[simp] theorem bind_is_mBind {α β : Type} (x : M α) (f : α → M β) :
    x >>= f = mBind x f := rfl

@[simp] theorem pure_is_mPure {α : Type} (a : α) : (pure a : M α) = mPure a := rfl

theorem mBind_ok {α β : Type} {x : M α} {f : α → M β} {st st' : St} {a : α}
    (h : x st = (Except.ok a, st')) : mBind x f st = f a st' := by
  unfold mBind
  rw [h]

theorem mBind_err {α β : Type} {x : M α} {f : α → M β} {st st' : St}
    {e : String} (h : x st = (Except.error e, st')) :
    mBind x f st = (Except.error e, st') := by
  unfold mBind
  rw [h]

theorem write_run (c : Cmd) (st : St) :
    write c st = (Except.ok (), ⟨st.opcQueue, st.errQueue, st.log ++ [c]⟩) := rfl

theorem mPure_run {α : Type} (a : α) (st : St) : mPure a st = (Except.ok a, st) := rfl

/-- Evaluation of `run_cal` under any environment whose step-count query
parses: the run initiates, loops all steps to completion, and ends with
exactly one save command carrying the composed name. -/
theorem run_cal_run (env : Env) (name : String) (suffix b t ch p : Nat)
    (now : PyTimestamp) (opcQ : List Bool) (errQ : List (List String))
    (k : Int) (hk : pyInt (env.stepsResp ch) = some k) :
    ∃ st2 : St, ∃ d : List Cmd,
      run_cal env name suffix b t ch p now ⟨opcQ, errQ, []⟩ =
        (Except.ok (), ⟨st2.opcQueue, st2.errQueue,
          Cmd.guidedInit ch :: d ++
            [Cmd.guidedSave ch (if suffix ≠ 0 then
              name ++ "_" ++ fmtTimestamp now else name)]⟩) ∧
      ∀ c ∈ d, preservesCal c := by
  have hspec := run_cal_steps_spec b t ch k.toNat 1 ⟨opcQ, errQ, [Cmd.guidedInit ch]⟩
  rcases hrs : run_cal_steps b t ch k.toNat 1 ⟨opcQ, errQ, [Cmd.guidedInit ch]⟩
    with ⟨r, st2⟩
  rw [hrs] at hspec
  obtain ⟨hok, d, hd, hp⟩ := hspec
  simp only [] at hok hd
  refine ⟨st2, d, ?_, hp⟩
  have hr : r = Except.ok () := hok
  subst hr
  unfold run_cal
  simp only [bind_is_mBind, pure_is_mPure]
  rw [mBind_ok (write_run (Cmd.guidedInit ch) ⟨opcQ, errQ, []⟩)]
  rw [int_of_resp_eq hk]
  rw [mBind_ok (mPure_run k _)]
  dsimp only [List.nil_append]
  rw [mBind_ok (show run_cal_steps b t ch k.toNat 1 ⟨opcQ, errQ, [Cmd.guidedInit ch]⟩ =
    (Except.ok (), st2) from by simpa using hrs)]
  rw [write_run]
  have hlog : st2.log = Cmd.guidedInit ch :: d := by simpa using hd
  rw [hlog]

theorem pad2_length (n : Nat) (h : n < 100) : (pad2 n).length = 2 := by
  interval_cases n <;> rfl

/-- C6: with the timestamp suffix enabled, finalizing a completed guided
calibration saves under exactly `<base>_<YYYYMMDD>_<HH-MM-SS>` — the base
name, an underscore, the 8-character `%Y%m%d` date, an underscore, and the
hyphen-separated 8-character `%H-%M-%S` time — and with the suffix disabled
it saves under exactly the unmodified base name; exactly one save command is
issued either way. -/
theorem run_cal_save_name (env : Env) (name : String) (suffix b t ch p : Nat)
    (now : PyTimestamp) (opcQ : List Bool) (errQ : List (List String)) (k : Int)
    (hk : pyInt (env.stepsResp ch) = some k)
    (hy : (toString now.year).length = 4)
    (hmo : now.month < 100) (hdy : now.day < 100) (hh : now.hour < 100)
    (hmi : now.minute < 100) (hs : now.second < 100) :
    ∃ st2 : St,
      run_cal env name suffix b t ch p now ⟨opcQ, errQ, []⟩ =
        (Except.ok (), st2) ∧
      st2.log.filter isGuidedSave =
        [Cmd.guidedSave ch (if suffix ≠ 0 then
          name ++ "_" ++ (toString now.year ++ pad2 now.month ++ pad2 now.day) ++
            "_" ++ (pad2 now.hour ++ "-" ++ pad2 now.minute ++ "-" ++ pad2 now.second)
          else name)] ∧
      (toString now.year ++ pad2 now.month ++ pad2 now.day).length = 8 ∧
      (pad2 now.hour ++ "-" ++ pad2 now.minute ++ "-" ++ pad2 now.second).length
        = 8 := by
  obtain ⟨st2', d, hrun, hp⟩ := run_cal_run env name suffix b t ch p now opcQ errQ k hk
  have hname : (if suffix ≠ 0 then name ++ "_" ++ fmtTimestamp now else name) =
      (if suffix ≠ 0 then
        name ++ "_" ++ (toString now.year ++ pad2 now.month ++ pad2 now.day) ++
          "_" ++ (pad2 now.hour ++ "-" ++ pad2 now.minute ++ "-" ++ pad2 now.second)
        else name) := by
    by_cases hsuf : suffix = 0
    · simp [hsuf]
    · simp [hsuf, fmtTimestamp, String.append_assoc]
  refine ⟨_, hrun, ?_, ?_, ?_⟩
  · dsimp only
    have hd0 : d.filter isGuidedSave = [] := by
      rw [List.filter_eq_nil_iff]
      intro c hc
      simp [(hp c hc).2]
    have hgi : isGuidedSave (Cmd.guidedInit ch) = false := rfl
    have hsv : ∀ nm, isGuidedSave (Cmd.guidedSave ch nm) = true := fun _ => rfl
    simp [List.filter_append, hd0, hgi, hsv, hname]
  · rw [String.length_append, String.length_append, hy,
      pad2_length _ hmo, pad2_length _ hdy]
  · simp only [String.length_append, pad2_length _ hh, pad2_length _ hmi,
      pad2_length _ hs]
    rfl

/-- A concrete environment for witnessing the calibration theorems: the
guided sequence reports one step and every interaction succeeds. -/
def calEnv : Env where
  displayCatalog := ""
  windowCatalog := fun _ => ""
  csetCatalog := ""
  convFreq := fun _ _ _ => ""
  sweptFreq := fun _ _ => ""
  carrierFreqResp := fun _ => ""
  stepsResp := fun _ => "1\n"

/-- Witness for `run_cal_save_name` at a concrete run. -/
theorem run_cal_save_name_witness :
    ∃ st2 : St,
      run_cal calEnv "my cal" 1 1 60000 1 1 ⟨2025, 10, 12, 14, 30, 5⟩
          ⟨[], [], []⟩ = (Except.ok (), st2) ∧
      st2.log.filter isGuidedSave =
        [Cmd.guidedSave 1 ("my cal" ++ "_" ++
          (toString 2025 ++ pad2 10 ++ pad2 12) ++ "_" ++
          (pad2 14 ++ "-" ++ pad2 30 ++ "-" ++ pad2 5))] := by
  obtain ⟨st2, h1, h2, _, _⟩ := run_cal_save_name calEnv "my cal" 1 1 60000 1 1
    ⟨2025, 10, 12, 14, 30, 5⟩ [] [] 1 (by decide) (by rfl)
    (by decide) (by decide) (by decide) (by decide) (by decide)
  exact ⟨st2, h1, by simpa using h2⟩

/-- C1 (amended): a calibration step rejected by the instrument is retried
identically until it succeeds — unlimited retry is the only policy `run_cal`
supports: it has no retry-budget parameter, so under every configuration a
step that fails twice and then succeeds yields exactly 3 measurement
attempts, one success, and exactly one save. -/
theorem run_cal_unlimited_retry (env : Env) (name : String)
    (suffix b t ch p : Nat) (now : PyTimestamp)
    (hk : pyInt (env.stepsResp ch) = some 1) :
    let st0 : St :=
      ⟨[], [["Cal standard rejected"], ["Cal standard rejected"], []], []⟩
    (run_cal env name suffix b t ch p now st0).1 = Except.ok () ∧
      ((run_cal env name suffix b t ch p now st0).2.log).countP isGuidedAcquire
        = 3 ∧
      ((run_cal env name suffix b t ch p now st0).2.log).countP isGuidedSave
        = 1 := by
  intro st0
  have hm1 : measure_cal_standard 1 b t ch
      ⟨[], [["Cal standard rejected"], ["Cal standard rejected"], []],
        [Cmd.guidedInit ch]⟩ =
      (Except.error "Cal standard rejected",
        ⟨[], [["Cal standard rejected"], []],
          [Cmd.guidedInit ch, Cmd.guidedAcquire ch 1]⟩) := rfl
  have hm2 : measure_cal_standard 1 b t ch
      ⟨[], [["Cal standard rejected"], []],
        [Cmd.guidedInit ch, Cmd.guidedAcquire ch 1]⟩ =
      (Except.error "Cal standard rejected",
        ⟨[], [[]],
          [Cmd.guidedInit ch, Cmd.guidedAcquire ch 1, Cmd.guidedAcquire ch 1]⟩) :=
    rfl
  have hm3 : measure_cal_standard 1 b t ch
      ⟨[], [[]],
        [Cmd.guidedInit ch, Cmd.guidedAcquire ch 1, Cmd.guidedAcquire ch 1]⟩ =
      (Except.ok (),
        ⟨[], [], [Cmd.guidedInit ch, Cmd.guidedAcquire ch 1,
          Cmd.guidedAcquire ch 1, Cmd.guidedAcquire ch 1]⟩) := rfl
  have hr : run_cal_retry 1 b t ch
      ⟨[], [["Cal standard rejected"], ["Cal standard rejected"], []],
        [Cmd.guidedInit ch]⟩ =
      (Except.ok (), ⟨[], [], [Cmd.guidedInit ch, Cmd.guidedAcquire ch 1,
        Cmd.guidedAcquire ch 1, Cmd.guidedAcquire ch 1]⟩) := by
    rw [run_cal_retry_eq_err hm1, run_cal_retry_eq_err hm2,
      run_cal_retry_eq_ok hm3]
  have hsteps : run_cal_steps b t ch 1 1
      ⟨[], [["Cal standard rejected"], ["Cal standard rejected"], []],
        [Cmd.guidedInit ch]⟩ =
      (Except.ok (), ⟨[], [], [Cmd.guidedInit ch, Cmd.guidedAcquire ch 1,
        Cmd.guidedAcquire ch 1, Cmd.guidedAcquire ch 1]⟩) := by
    show mBind (run_cal_retry 1 b t ch) _ _ = _
    rw [mBind_ok hr]
    rfl
  have hrun : run_cal env name suffix b t ch p now st0 =
      (Except.ok (), ⟨[], [], [Cmd.guidedInit ch, Cmd.guidedAcquire ch 1,
        Cmd.guidedAcquire ch 1, Cmd.guidedAcquire ch 1,
        Cmd.guidedSave ch (if suffix ≠ 0 then name ++ "_" ++ fmtTimestamp now
          else name)]⟩) := by
    unfold run_cal
    simp only [bind_is_mBind, pure_is_mPure]
    rw [mBind_ok (write_run (Cmd.guidedInit ch) st0)]
    rw [int_of_resp_eq hk]
    rw [mBind_ok (mPure_run 1 _)]
    dsimp only [List.nil_append]
    rw [show (Int.toNat 1) = 1 from rfl]
    rw [mBind_ok hsteps]
    rfl
  rw [hrun]
  exact ⟨rfl, rfl, rfl⟩

/-- Witness for `run_cal_unlimited_retry` at a concrete configuration. -/
theorem run_cal_unlimited_retry_witness :
    let st0 : St :=
      ⟨[], [["Cal standard rejected"], ["Cal standard rejected"], []], []⟩
    (run_cal calEnv "cal2" 0 1 30000 2 0 ⟨2025, 1, 2, 3, 4, 5⟩ st0).1 =
        Except.ok () ∧
      ((run_cal calEnv "cal2" 0 1 30000 2 0 ⟨2025, 1, 2, 3, 4, 5⟩
        st0).2.log).countP isGuidedAcquire = 3 ∧
      ((run_cal calEnv "cal2" 0 1 30000 2 0 ⟨2025, 1, 2, 3, 4, 5⟩
        st0).2.log).countP isGuidedSave = 1 :=
  run_cal_unlimited_retry calEnv "cal2" 0 1 30000 2 0 ⟨2025, 1, 2, 3, 4, 5⟩
    (by decide)

/-- Counterexample to C1 as stated: `run_cal` offers no bounded-retry
configuration — with its default arguments and a simulated step that fails
twice then succeeds, the run performs 3 measurement attempts and issues the
save; it does not abort after 2 attempts, and no argument of `run_cal`
selects such a policy. -/
theorem run_cal_no_bounded_retry :
    let st0 : St :=
      ⟨[], [["Cal standard rejected"], ["Cal standard rejected"], []], []⟩
    let res := run_cal calEnv "my cal" 1 1 60000 1 1 ⟨2025, 10, 12, 14, 30, 5⟩ st0
    res.1 = Except.ok () ∧
      (res.2.log).countP isGuidedAcquire = 3 ∧
      ¬ ((res.2.log).countP isGuidedAcquire = 2 ∧
        (res.2.log).countP isGuidedSave = 0) := by
  intro st0 res
  have hm1 : measure_cal_standard 1 1 60000 1
      ⟨[], [["Cal standard rejected"], ["Cal standard rejected"], []],
        [Cmd.guidedInit 1]⟩ =
      (Except.error "Cal standard rejected",
        ⟨[], [["Cal standard rejected"], []],
          [Cmd.guidedInit 1, Cmd.guidedAcquire 1 1]⟩) := rfl
  have hm2 : measure_cal_standard 1 1 60000 1
      ⟨[], [["Cal standard rejected"], []],
        [Cmd.guidedInit 1, Cmd.guidedAcquire 1 1]⟩ =
      (Except.error "Cal standard rejected",
        ⟨[], [[]],
          [Cmd.guidedInit 1, Cmd.guidedAcquire 1 1, Cmd.guidedAcquire 1 1]⟩) :=
    rfl
  have hm3 : measure_cal_standard 1 1 60000 1
      ⟨[], [[]],
        [Cmd.guidedInit 1, Cmd.guidedAcquire 1 1, Cmd.guidedAcquire 1 1]⟩ =
      (Except.ok (),
        ⟨[], [], [Cmd.guidedInit 1, Cmd.guidedAcquire 1 1,
          Cmd.guidedAcquire 1 1, Cmd.guidedAcquire 1 1]⟩) := rfl
  have hr : run_cal_retry 1 1 60000 1
      ⟨[], [["Cal standard rejected"], ["Cal standard rejected"], []],
        [Cmd.guidedInit 1]⟩ =
      (Except.ok (), ⟨[], [], [Cmd.guidedInit 1, Cmd.guidedAcquire 1 1,
        Cmd.guidedAcquire 1 1, Cmd.guidedAcquire 1 1]⟩) := by
    rw [run_cal_retry_eq_err hm1, run_cal_retry_eq_err hm2,
      run_cal_retry_eq_ok hm3]
  have hsteps : run_cal_steps 1 60000 1 1 1
      ⟨[], [["Cal standard rejected"], ["Cal standard rejected"], []],
        [Cmd.guidedInit 1]⟩ =
      (Except.ok (), ⟨[], [], [Cmd.guidedInit 1, Cmd.guidedAcquire 1 1,
        Cmd.guidedAcquire 1 1, Cmd.guidedAcquire 1 1]⟩) := by
    show mBind (run_cal_retry 1 1 60000 1) _ _ = _
    rw [mBind_ok hr]
    rfl
  have hrun : res =
      (Except.ok (), ⟨[], [], [Cmd.guidedInit 1, Cmd.guidedAcquire 1 1,
        Cmd.guidedAcquire 1 1, Cmd.guidedAcquire 1 1,
        Cmd.guidedSave 1 ("my cal" ++ "_" ++
          fmtTimestamp ⟨2025, 10, 12, 14, 30, 5⟩)]⟩) := by
    show run_cal calEnv "my cal" 1 1 60000 1 1 ⟨2025, 10, 12, 14, 30, 5⟩ st0 = _
    unfold run_cal
    simp only [bind_is_mBind, pure_is_mPure]
    rw [mBind_ok (write_run (Cmd.guidedInit 1) st0)]
    rw [int_of_resp_eq (show pyInt (calEnv.stepsResp 1) = some 1 by decide)]
    rw [mBind_ok (mPure_run 1 _)]
    dsimp only [List.nil_append]
    rw [show (Int.toNat 1) = 1 from rfl]
    rw [mBind_ok hsteps]
    rfl
  rw [hrun]
  refine ⟨rfl, rfl, ?_⟩
  intro hcon
  exact absurd (rfl.trans hcon.1.symm) (by decide)

/- ### C3 and C8: trace slots and window creation -/

/-- C3: the next free trace slot is `1` when the window trace catalog
reports the empty sentinel (matched case-insensitively), and otherwise the
number of catalog entries plus one; for a gap-free catalog listing slots
`1..k` it is `k+1`, which is never an index already present in the
catalog. -/
theorem next_trace_slot_spec (cat : String) :
    (strHas (pyLower cat) "empty" = true → next_trace_slot cat = 1) ∧
    (∀ (tokens : List String) (k : Nat),
      strHas (pyLower cat) "empty" = false →
      pySplit ',' cat = tokens →
      tokens.map pyInt = (List.range' 1 k).map (fun i => some ((i : Nat) : Int)) →
      next_trace_slot cat = k + 1 ∧
        ∀ s ∈ tokens, pyInt s ≠ some (((k + 1 : Nat) : Int))) := by
  constructor
  · intro h
    simp [next_trace_slot, h]
  · intro tokens k hsent htok hparse
    have hlen : tokens.length = k := by
      have := congrArg List.length hparse
      simpa using this
    constructor
    · simp [next_trace_slot, hsent, htok, hlen]
    · intro s hs hcon
      have hmem : pyInt s ∈ tokens.map pyInt := List.mem_map_of_mem pyInt hs
      rw [hparse] at hmem
      rcases List.mem_map.1 hmem with ⟨i, hi, hieq⟩
      have hib := List.mem_range'.1 hi
      rw [hcon] at hieq
      have : (i : Int) = ((k + 1 : Nat) : Int) := by
        exact Option.some.inj hieq
      have : i = k + 1 := by exact_mod_cast this
      omega

/-- Witness for `next_trace_slot_spec`: the documented sentinel gives slot 1
and the catalog `1,2` gives slot 3, not present in the catalog. -/
theorem next_trace_slot_spec_witness :
    next_trace_slot "EMPTY" = 1 ∧ next_trace_slot "1,2" = 3 ∧
      ∀ s ∈ ["1", "2"], pyInt s ≠ some ((3 : Nat) : Int) := by
  refine ⟨(next_trace_slot_spec "EMPTY").1 (by decide), ?_⟩
  have h := (next_trace_slot_spec "1,2").2 ["1", "2"] 2 (by decide) (by decide)
    (by decide)
  exact ⟨h.1, h.2⟩

/-- The display-catalog response of a live instrument whose windows 1 and 2
exist: comma-separated window ids followed by the message terminator, which
`new_sparam_trace` never strips. -/
def windowBugEnv : Env where
  displayCatalog := "1,2\n"
  windowCatalog := fun _ => "EMPTY"
  csetCatalog := ""
  convFreq := fun _ _ _ => ""
  sweptFreq := fun _ _ => ""
  carrierFreqResp := fun _ => ""
  stepsResp := fun _ => ""

/-- C8: evaluation at the failing input.  Window `2` appears in the
display catalog `"1,2\n"` (its tokens, stripped of the terminator, are
`1` and `2`), yet `new_sparam_trace` — which splits the raw response
without stripping, so its last token is `"2\n"` — fails the membership
test and issues the window-on command anyway, contradicting both the
claim and the code's own comment that an existing window must not be
re-created. -/
theorem new_sparam_trace_window_recreate_bug :
    (pySplit ',' (pyStrip windowBugEnv.displayCatalog)).contains "2" = true ∧
    Cmd.windowOn 2 ∈
      (new_sparam_trace windowBugEnv "ReturnLoss" "S11" 2 1 ⟨[], [], []⟩).2.log := by
  constructor
  · decide
  · decide

/- ### C7: validation ordering in the configuration setters -/

/-- Counterexample to C7: `configure_mod_sweep` with its default arguments
and an invalid `powerContext` raises the validation error only after four
configuration commands have already been sent to the instrument — a failed
validation does not leave instrument state unmutated. -/
theorem configure_mod_sweep_late_validation :
    configure_mod_sweep "fixed" 1000000000 300000000 200 (-30) "bogus"
        (-20) (-10) 11 0 1 ⟨[], [], []⟩ =
      (Except.error "Invalid powerContext, must be din1 or dout2.",
        ⟨[], [], [Cmd.distSweepType 1 "fixed",
          Cmd.distCarrierFreq 1 1000000000, Cmd.freqSpan 1 300000000,
          Cmd.saNoiseBw 1 200]⟩) := by
  rfl

/-- C7 (amended): the `sweepType` validation of `configure_mod_sweep` (and
likewise the port validations placed at the top of other setters) rejects
before any command is sent, leaving the instrument completely unmutated;
but the `powerContext` validation of `configure_mod_sweep` and the
`detectorType` validation of `configure_sa_sweep` run only after several
commands have already been written, so those validation failures leave
instrument state partially mutated. -/
theorem configure_sweep_validation_order
    (ty : String) (c s n pw : ℚ) (pc : String) (sp stp : ℚ) (pp : Int)
    (auto ch : Nat) (st0 : St) (opcQ : List Bool) (errQ : List (List String))
    (cf sa sf stf : ℚ) (np : Int) (rb vb : ℚ) (dt : String) (ch2 : Nat) :
    ((["fixed", "power"] : List String).contains (pyLower ty) = false →
      configure_mod_sweep ty c s n pw pc sp stp pp auto ch st0 =
        (Except.error "Invalid sweepType, must be fixed or power.", st0)) ∧
    ((["fixed", "power"] : List String).contains (pyLower ty) = true →
      (["din1", "dout2"] : List String).contains (pyLower pc) = false →
      (configure_mod_sweep ty c s n pw pc sp stp pp auto ch
          ⟨opcQ, errQ, []⟩).1 =
        Except.error "Invalid powerContext, must be din1 or dout2." ∧
      ((configure_mod_sweep ty c s n pw pc sp stp pp auto ch
          ⟨opcQ, errQ, []⟩).2).log.head? = some (Cmd.distSweepType ch ty)) ∧
    ((["peak", "average", "sample", "normal", "negpeak", "psample",
        "paverage", "faspeak"] : List String).contains (pyLower dt) = false →
      configure_sa_sweep cf sa sf stf np rb vb dt 1 1 1 0 ch2
          ⟨opcQ, errQ, []⟩ =
        (Except.error "Invalid detectorType.",
          ⟨opcQ, errQ, [Cmd.freqStart ch2 sf, Cmd.freqStop ch2 stf,
            Cmd.sweepPoints ch2 np, Cmd.saDetBypass ch2 0]⟩)) := by
  refine ⟨?_, ?_, ?_⟩
  · intro hbad
    simp only [List.contains_cons, List.contains_nil, Bool.or_false,
      Bool.or_eq_false_iff, beq_eq_false_iff_ne, ne_eq] at hbad
    unfold configure_mod_sweep
    simp [bind_is_mBind, pure_is_mPure, mBind, mPure, mThrow, write,
      hbad.1, hbad.2]
  · intro hok hpc
    simp only [List.contains_cons, List.contains_nil, Bool.or_false,
      Bool.or_eq_false_iff, beq_eq_false_iff_ne, ne_eq] at hpc
    simp only [List.contains_cons, List.contains_nil, Bool.or_false,
      Bool.or_eq_true, beq_iff_eq] at hok
    unfold configure_mod_sweep
    rcases hok with hfix | hpow
    · simp [bind_is_mBind, pure_is_mPure, mBind, mPure, mThrow, write,
        hfix, hpc.1, hpc.2, show ("fixed" : String) ≠ "power" by decide]
    · simp [bind_is_mBind, pure_is_mPure, mBind, mPure, mThrow, write,
        hpow, hpc.1, hpc.2]
  · intro hdt
    simp only [List.contains_cons, List.contains_nil, Bool.or_false,
      Bool.or_eq_false_iff, beq_eq_false_iff_ne, ne_eq] at hdt
    unfold configure_sa_sweep
    obtain ⟨h1, h2, h3, h4, h5, h6, h7, h8⟩ := hdt
    simp [bind_is_mBind, pure_is_mPure, mBind, mPure, mThrow, write,
      h1, h2, h3, h4, h5, h6, h7, h8]

/-- Witness for `configure_sweep_validation_order` at concrete calls. -/
theorem configure_sweep_validation_order_witness :
    configure_mod_sweep "linear" 1 1 1 1 "din1" 1 1 1 0 1 ⟨[], [], []⟩ =
      (Except.error "Invalid sweepType, must be fixed or power.",
        ⟨[], [], []⟩) ∧
    (configure_mod_sweep "power" 1 1 1 1 "dout3" 1 1 1 0 1 ⟨[], [], []⟩).1 =
      Except.error "Invalid powerContext, must be din1 or dout2." ∧
    configure_sa_sweep 1 1 2 3 801 1 1 "bogus" 1 1 1 0 2 ⟨[], [], []⟩ =
      (Except.error "Invalid detectorType.",
        ⟨[], [], [Cmd.freqStart 2 2, Cmd.freqStop 2 3, Cmd.sweepPoints 2 801,
          Cmd.saDetBypass 2 0]⟩) := by
  refine ⟨?_, ?_, ?_⟩
  · exact (configure_sweep_validation_order "linear" 1 1 1 1 "din1" 1 1 1 0 1
      ⟨[], [], []⟩ [] [] 1 1 2 3 801 1 1 "bogus" 2).1 (by decide)
  · exact ((configure_sweep_validation_order "power" 1 1 1 1 "dout3" 1 1 1 0 1
      ⟨[], [], []⟩ [] [] 1 1 2 3 801 1 1 "bogus" 2).2.1 (by decide)
      (by decide)).1
  · exact (configure_sweep_validation_order "power" 1 1 1 1 "dout3" 1 1 1 0 1
      ⟨[], [], []⟩ [] [] 1 1 2 3 801 1 1 "bogus" 2).2.2 (by decide)

/- ### De-embed/Compose Pipeline -/

/-- Python `float(query(...).rstrip())`: parse the response or raise. -/
def float_of_resp (s : String) : M ℚ :=
  match pyFloat (pyRStrip s) with
  | some q => mPure q
  | none => mThrow "ValueError: could not convert string to float"

/-- The calibration-family stimulus special case of `deembed_calset`
(source lines 948–978): a MODX base set cannot inherit its stimulus, so the
LO/input/output frequency metadata is read back and centre/span/sideband
re-derived; a (non-X) MOD base set re-derives centre/span from the swept
limits; all other families do nothing here. -/
def deembed_modx_stimulus (env : Env) (baseCalset : String) : M Unit :=
  if strHas baseCalset "MODX" then do
    let loFreq ← float_of_resp (env.convFreq baseCalset "lo1" "start")
    let inputStartFreq ← float_of_resp (env.convFreq baseCalset "input" "start")
    let inputStopFreq ← float_of_resp (env.convFreq baseCalset "input" "stop")
    let outputStartFreq ← float_of_resp (env.convFreq baseCalset "output" "start")
    let outputStopFreq ← float_of_resp (env.convFreq baseCalset "output" "stop")
    let inputCenterFreq := (inputStopFreq + inputStartFreq) / 2
    let inputSpan := inputStopFreq - inputStartFreq
    let _outputCenterFreq := (outputStopFreq + outputStartFreq) / 2
    configure_mod_sweep "fixed" inputCenterFreq inputSpan 200 (-30) "din1"
      (-20) (-10) 11 0 200
    let sideband := if inputStartFreq < outputStartFreq then "high" else "low"
    configure_modx_mixer env loFreq sideband 200
  else if strHas baseCalset "MOD" then do
    let startFreq ← float_of_resp (env.sweptFreq baseCalset "start")
    let stopFreq ← float_of_resp (env.sweptFreq baseCalset "stop")
    let centerFreq := (stopFreq + startFreq) / 2
    let span := stopFreq - startFreq
    configure_mod_sweep "fixed" centerFreq span 200 (-30) "din1"
      (-20) (-10) 11 0 200
  else
    pure ()

/-- The fixture-attachment block of `deembed_calset` (source lines
980–995): add a file de-embed on each DUT port with reflections nulled at
the DUT side, then apply and enable the simulated network. -/
def deembed_fixture_attach (portOneS2p portTwoS2p : String)
    (enableExtrapolation deembedChannel : Nat) : M Unit := do
  write (Cmd.fsimAdd deembedChannel 1)
  write (Cmd.fsimFile deembedChannel 1 portOneS2p)
  write (Cmd.fsimModifyNoRefl deembedChannel 1)
  write (Cmd.fsimExtrap deembedChannel 1 enableExtrapolation)
  write (Cmd.fsimPorts deembedChannel 1 1)
  write (Cmd.fsimAdd deembedChannel 2)
  write (Cmd.fsimFile deembedChannel 2 portTwoS2p)
  write (Cmd.fsimModifyNoRefl deembedChannel 2)
  write (Cmd.fsimExtrap deembedChannel 2 enableExtrapolation)
  write (Cmd.fsimPorts deembedChannel 2 2)
  write (Cmd.fsimApply deembedChannel)
  write (Cmd.fsimState deembedChannel)

/-- The circuit-simulator compose body of `deembed_calset` (source lines
926–1002, everything inside the `enhancedResponse` branch before the
scratch-channel delete): create a trace of the base set's measurement class
on the reserved scratch channel 200, load the base cal set onto it, hold its
trigger, re-derive stimulus for the MOD/MODX families, attach both fixture
files, optionally enable power compensation, and flatten the corrected
result into the final named cal set. -/
def deembed_enhanced_body (env : Env) (baseCalset finalCalset : String)
    (portOneS2p portTwoS2p : String)
    (portOnePowerComp portTwoPowerComp enableExtrapolation : Nat) : M Unit := do
  let _ ← (if strHas baseCalset "_STD" then
      new_sparam_trace env "ReturnLoss" "S11" 200 200
    else if strHas baseCalset "_SMC" then
      new_smc_trace env "ForwardConversion" "SC21" 200 200
    else if strHas baseCalset "_GCA" then
      new_gca_trace env "GainAtCompression" "CompGain21" 0 200 200
    else if strHas baseCalset "_GCX" then
      new_gcax_trace env "GainAtCompression" "CompGain21" 200 200
    else if strHas baseCalset "_NFA" then
      new_nf_trace env "Noise Figure" "NF" 0 200 200
    else if strHas baseCalset "_NFX" then
      new_nfx_trace env "Noise Figure" "NF" 0 200 200
    else if strHas baseCalset "_MODX" then
      new_modx_trace env "InputPower" "PIn1" 0 200 200
    else if strHas baseCalset "_MOD" then
      new_mod_trace env "InputPower" "PIn1" 200 200
    else pure ())
  load_cal_set env baseCalset 1 200
  hold_trigger 200
  deembed_modx_stimulus env baseCalset
  deembed_fixture_attach portOneS2p portTwoS2p enableExtrapolation 200
  let _ ← (if portOnePowerComp ≠ 0 then
    write (Cmd.fsimPowerComp 200 1) else pure ())
  let _ ← (if portTwoPowerComp ≠ 0 then
    write (Cmd.fsimPowerComp 200 2) else pure ())
  write (Cmd.csetFlatten 200 finalCalset)

/-- Embeds `deembed_calset` (source lines 912–1011): optionally delete any
existing final cal set, then compose either through the circuit simulator on
scratch channel 200 (ending with the scratch-channel delete) or through the
direct two-stage file de-embed via the `intermediate` set, and finally drain
the error queue. -/
def deembed_calset (env : Env) (baseCalset finalCalset : String)
    (portOneS2p portTwoS2p : String)
    (enhancedResponse portOnePowerComp portTwoPowerComp enableExtrapolation
      overWrite : Nat) : M Unit := do
  let _ ← (if overWrite ≠ 0 then
    write (Cmd.csetDelete finalCalset) else pure ())
  let _ ← (if enhancedResponse ≠ 0 then do
      deembed_enhanced_body env baseCalset finalCalset portOneS2p portTwoS2p
        portOnePowerComp portTwoPowerComp enableExtrapolation
      write (Cmd.chanDelete 200)
    else do
      write (Cmd.fixtureDeembed baseCalset "intermediate" portOneS2p 1)
      wait_for_opc_m none
      write (Cmd.fixtureDeembed "intermediate" finalCalset portTwoS2p 2)
      wait_for_opc_m none)
  err_check

theorem float_of_resp_onlyAdds {P : Cmd → Prop} (s : String) :
    OnlyAdds P (float_of_resp s) := by
  unfold float_of_resp
  cases hq : pyFloat (pyRStrip s) with
  | none => exact onlyAdds_mThrow _
  | some q => exact onlyAdds_mPure _

theorem deembed_modx_stimulus_onlyAdds (env : Env) (base : String) :
    OnlyAdds benign (deembed_modx_stimulus env base) := by
  unfold deembed_modx_stimulus
  apply onlyAdds_ite
  · apply onlyAdds_bind (float_of_resp_onlyAdds _)
    intro _
    apply onlyAdds_bind (float_of_resp_onlyAdds _)
    intro _
    apply onlyAdds_bind (float_of_resp_onlyAdds _)
    intro _
    apply onlyAdds_bind (float_of_resp_onlyAdds _)
    intro _
    apply onlyAdds_bind (float_of_resp_onlyAdds _)
    intro _
    apply onlyAdds_bind (configure_mod_sweep_onlyAdds _ _ _ _ _ _ _ _ _ _ _)
    intro _
    exact configure_modx_mixer_onlyAdds _ _ _ _
  · apply onlyAdds_ite
    · apply onlyAdds_bind (float_of_resp_onlyAdds _)
      intro _
      apply onlyAdds_bind (float_of_resp_onlyAdds _)
      intro _
      exact configure_mod_sweep_onlyAdds _ _ _ _ _ _ _ _ _ _ _
    · exact onlyAdds_pure _

theorem deembed_fixture_attach_onlyAdds (p1 p2 : String) (ee dc : Nat) :
    OnlyAdds benign (deembed_fixture_attach p1 p2 ee dc) := by
  unfold deembed_fixture_attach
  apply onlyAdds_bind (onlyAdds_write ⟨rfl, rfl, rfl⟩)
  intro _
  apply onlyAdds_bind (onlyAdds_write ⟨rfl, rfl, rfl⟩)
  intro _
  apply onlyAdds_bind (onlyAdds_write ⟨rfl, rfl, rfl⟩)
  intro _
  apply onlyAdds_bind (onlyAdds_write ⟨rfl, rfl, rfl⟩)
  intro _
  apply onlyAdds_bind (onlyAdds_write ⟨rfl, rfl, rfl⟩)
  intro _
  apply onlyAdds_bind (onlyAdds_write ⟨rfl, rfl, rfl⟩)
  intro _
  apply onlyAdds_bind (onlyAdds_write ⟨rfl, rfl, rfl⟩)
  intro _
  apply onlyAdds_bind (onlyAdds_write ⟨rfl, rfl, rfl⟩)
  intro _
  apply onlyAdds_bind (onlyAdds_write ⟨rfl, rfl, rfl⟩)
  intro _
  apply onlyAdds_bind (onlyAdds_write ⟨rfl, rfl, rfl⟩)
  intro _
  exact onlyAdds_bind (onlyAdds_write ⟨rfl, rfl, rfl⟩)
    (fun _ => onlyAdds_write ⟨rfl, rfl, rfl⟩)

theorem deembed_enhanced_body_onlyAdds (env : Env) (base final p1 p2 : String)
    (pc1 pc2 ee : Nat) :
    OnlyAdds benign (deembed_enhanced_body env base final p1 p2 pc1 pc2 ee) := by
  unfold deembed_enhanced_body
  apply onlyAdds_bind
  · apply onlyAdds_ite _ (new_sparam_trace_onlyAdds env _ _ _ _)
    apply onlyAdds_ite _ (new_smc_trace_onlyAdds env _ _ _ _)
    apply onlyAdds_ite _ (new_gca_trace_onlyAdds env _ _ _ _ _)
    apply onlyAdds_ite _ (new_gcax_trace_onlyAdds env _ _ _ _)
    apply onlyAdds_ite _ (new_nf_trace_onlyAdds env _ _ _ _ _)
    apply onlyAdds_ite _ (new_nfx_trace_onlyAdds env _ _ _ _ _)
    apply onlyAdds_ite _ (new_modx_trace_onlyAdds env _ _ _ _ _)
    exact onlyAdds_ite _ (new_mod_trace_onlyAdds env _ _ _ _) (onlyAdds_pure _)
  · intro _
    apply onlyAdds_bind (load_cal_set_onlyAdds env _ _ _)
    intro _
    apply onlyAdds_bind (hold_trigger_onlyAdds _)
    intro _
    apply onlyAdds_bind (deembed_modx_stimulus_onlyAdds env base)
    intro _
    apply onlyAdds_bind (deembed_fixture_attach_onlyAdds p1 p2 ee 200)
    intro _
    apply onlyAdds_bind
      (onlyAdds_ite _ (onlyAdds_write ⟨rfl, rfl, rfl⟩) (onlyAdds_pure _))
    intro _
    apply onlyAdds_bind
      (onlyAdds_ite _ (onlyAdds_write ⟨rfl, rfl, rfl⟩) (onlyAdds_pure _))
    intro _
    exact onlyAdds_write ⟨rfl, rfl, rfl⟩

/-- C10: with `overWrite` nonzero, the delete command for the final cal set
is the very first command issued — before any compose or de-embed command,
in both the enhancedResponse and the direct two-stage paths, and whatever
the outcome of the run — so a failure later in the composition leaves the
previously existing final cal set already deleted (the operation is not
atomic on error). -/
theorem deembed_calset_delete_first (env : Env) (base final p1 p2 : String)
    (er pc1 pc2 ee ow : Nat) (opcQ : List Bool) (errQ : List (List String))
    (how : ow ≠ 0) :
    ((deembed_calset env base final p1 p2 er pc1 pc2 ee ow
        ⟨opcQ, errQ, []⟩).2).log.head? = some (Cmd.csetDelete final) := by
  unfold deembed_calset
  simp only [bind_is_mBind, pure_is_mPure]
  rw [if_pos how]
  rw [mBind_ok (write_run _ _)]
  dsimp only [List.nil_append]
  have hF : OnlyAdds (fun _ => True)
      (mBind (if er ≠ 0 then
          mBind (deembed_enhanced_body env base final p1 p2 pc1 pc2 ee)
            (fun _ => write (Cmd.chanDelete 200))
        else
          mBind (write (Cmd.fixtureDeembed base "intermediate" p1 1)) (fun _ =>
            mBind (wait_for_opc_m none) (fun _ =>
              mBind (write (Cmd.fixtureDeembed "intermediate" final p2 2))
                (fun _ => wait_for_opc_m none))))
        (fun _ => err_check)) := by
    apply onlyAdds_bind
    · apply onlyAdds_ite
      · apply onlyAdds_bind (onlyAdds_mono
          (deembed_enhanced_body_onlyAdds env base final p1 p2 pc1 pc2 ee)
          (fun _ _ => trivial))
        intro _
        exact onlyAdds_write trivial
      · apply onlyAdds_bind (onlyAdds_write trivial)
        intro _
        apply onlyAdds_bind (onlyAdds_wait _)
        intro _
        apply onlyAdds_bind (onlyAdds_write trivial)
        intro _
        exact onlyAdds_wait _
    · intro _
      exact onlyAdds_err_check
  exact Eq.trans (head_of_onlyAdds hF ⟨opcQ, errQ, [Cmd.csetDelete final]⟩
    (by simp)) rfl

/-- Witness for `deembed_calset_delete_first`: concrete runs of both paths
start with the delete of the final cal set. -/
theorem deembed_calset_delete_first_witness :
    ((deembed_calset calEnv "b_STD" "final" "p1.s2p" "p2.s2p" 1 0 0 0 1
        ⟨[], [], []⟩).2).log.head? = some (Cmd.csetDelete "final") ∧
    ((deembed_calset calEnv "b_STD" "final" "p1.s2p" "p2.s2p" 0 0 0 0 1
        ⟨[], [], []⟩).2).log.head? = some (Cmd.csetDelete "final") :=
  ⟨deembed_calset_delete_first calEnv "b_STD" "final" "p1.s2p" "p2.s2p"
      1 0 0 0 1 [] [] (by decide),
    deembed_calset_delete_first calEnv "b_STD" "final" "p1.s2p" "p2.s2p"
      0 0 0 0 1 [] [] (by decide)⟩

theorem deembed_enh_count_aux (env : Env) (base final p1 p2 : String)
    (pc1 pc2 ee : Nat) (st1 : St)
    (h0 : (st1.log).countP isChanDelete = 0)
    (hok : ((mBind (mBind
        (deembed_enhanced_body env base final p1 p2 pc1 pc2 ee)
        (fun _ => write (Cmd.chanDelete 200))) (fun _ => err_check)) st1).1 =
      Except.ok ()) :
    (((mBind (mBind
        (deembed_enhanced_body env base final p1 p2 pc1 pc2 ee)
        (fun _ => write (Cmd.chanDelete 200))) (fun _ => err_check)) st1).2).log.countP
      isChanDelete = 1 := by
  rcases hb : deembed_enhanced_body env base final p1 p2 pc1 pc2 ee st1
    with ⟨rb, st2⟩
  have hc2 : st2.log.countP isChanDelete = 0 := by
    have := countP_of_onlyAdds
      (deembed_enhanced_body_onlyAdds env base final p1 p2 pc1 pc2 ee)
      isChanDelete (fun c hc => hc.1) st1
    rw [hb] at this
    simpa [h0] using this
  cases rb with
  | error e =>
    rw [mBind_err (mBind_err hb)] at hok
    exact absurd hok (by simp)
  | ok a =>
    have hinner : mBind (deembed_enhanced_body env base final p1 p2 pc1 pc2 ee)
        (fun _ => write (Cmd.chanDelete 200)) st1 =
        (Except.ok (), ⟨st2.opcQueue, st2.errQueue,
          st2.log ++ [Cmd.chanDelete 200]⟩) := by
      rw [mBind_ok hb, write_run]
    rw [mBind_ok hinner]
    have hpres := @countP_of_onlyAdds (fun _ => False) _ err_check
      onlyAdds_err_check isChanDelete (fun _ hc => hc.elim)
      ⟨st2.opcQueue, st2.errQueue, st2.log ++ [Cmd.chanDelete 200]⟩
    rw [hpres]
    simp [List.countP_append, hc2, isChanDelete]

/-- C4 (amended): in the circuit-simulator (enhancedResponse) compose path,
the scratch-channel (reserved id 200) deletion command is issued exactly
once on every run that completes without error; when a step of the compose
fails partway through (cal-set load, stimulus read-back, fixture
attachment), the deletion command is not issued at all — there is no
guaranteed teardown (shown by the counterexample). -/
theorem deembed_calset_scratch_delete_once (env : Env)
    (base final p1 p2 : String) (er pc1 pc2 ee ow : Nat)
    (opcQ : List Bool) (errQ : List (List String)) (her : er ≠ 0)
    (hok : (deembed_calset env base final p1 p2 er pc1 pc2 ee ow
        ⟨opcQ, errQ, []⟩).1 = Except.ok ()) :
    ((deembed_calset env base final p1 p2 er pc1 pc2 ee ow
        ⟨opcQ, errQ, []⟩).2).log.countP isChanDelete = 1 := by
  unfold deembed_calset at hok ⊢
  simp only [bind_is_mBind, pure_is_mPure] at hok ⊢
  by_cases how : ow ≠ 0
  · rw [if_pos how, mBind_ok (write_run _ _)] at hok ⊢
    dsimp only [List.nil_append] at hok ⊢
    rw [if_pos her] at hok ⊢
    exact deembed_enh_count_aux env base final p1 p2 pc1 pc2 ee _
      (by simp [show isChanDelete (Cmd.csetDelete final) = false from rfl]) hok
  · rw [if_neg how, mBind_ok (mPure_run _ _)] at hok ⊢
    rw [if_pos her] at hok ⊢
    exact deembed_enh_count_aux env base final p1 p2 pc1 pc2 ee _ (by simp) hok

/-- An environment on which the circuit-simulator compose fails partway
through: the base cal set is absent from the live cal-set catalog, so
`load_cal_set` raises after the scratch-channel trace was already created. -/
def deembedFailEnv : Env where
  displayCatalog := "1\n"
  windowCatalog := fun _ => "EMPTY\n"
  csetCatalog := "SomeOtherCal\n"
  convFreq := fun _ _ _ => ""
  sweptFreq := fun _ _ => ""
  carrierFreqResp := fun _ => ""
  stepsResp := fun _ => ""

/-- Counterexample to C4: when the compose fails partway through (here the
cal-set load), the run aborts with the scratch channel still allocated —
the `system:channels:delete 200` command is never issued (count 0, not 1),
because the deletion has no try/finally protection. -/
theorem deembed_calset_no_cleanup_on_failure :
    deembed_calset deembedFailEnv "base_STD" "final" "p1.s2p" "p2.s2p"
        1 0 0 0 1 ⟨[], [], []⟩ =
      (Except.error "Selected cal set does not exist.",
        ⟨[], [], [Cmd.csetDelete "final",
          Cmd.paramDefineExt 200 "ReturnLoss" "S11", Cmd.windowOn 200,
          Cmd.traceFeed 200 1 "ReturnLoss"]⟩) ∧
    ((deembed_calset deembedFailEnv "base_STD" "final" "p1.s2p" "p2.s2p"
        1 0 0 0 1 ⟨[], [], []⟩).2).log.countP isChanDelete = 0 := by
  constructor
  · rfl
  · rfl

/-- A live cal-set catalog that does contain the base set, so the compose
completes. -/
def deembedOkEnv : Env where
  displayCatalog := "1\n"
  windowCatalog := fun _ => "EMPTY\n"
  csetCatalog := "\"base_STD\"\n"
  convFreq := fun _ _ _ => ""
  sweptFreq := fun _ _ => ""
  carrierFreqResp := fun _ => ""
  stepsResp := fun _ => ""

/-- Witness for `deembed_calset_scratch_delete_once` on a concrete
successful run. -/
theorem deembed_calset_scratch_delete_once_witness :
    ((deembed_calset deembedOkEnv "base_STD" "final" "p1.s2p" "p2.s2p"
        1 0 0 0 1 ⟨[], [], []⟩).2).log.countP isChanDelete = 1 :=
  deembed_calset_scratch_delete_once deembedOkEnv "base_STD" "final"
    "p1.s2p" "p2.s2p" 1 0 0 0 1 [] [] (by decide) (by rfl)
